import Mathlib

/-
Verification of the MayaOps Google Sheets import pipeline
(lib/google-sheets-tasks.ts and lib/google-sheets-properties.ts).

The embedding models strings as lists of characters, spreadsheet cells as
optional strings (a missing cell corresponds to undefined or null), and the
JavaScript Date values produced by the import code as civil calendar dates
paired with a minute-of-day, interpreted in a fixed local timezone given by
an offset in minutes from UTC.  Database access through Prisma is modelled
as explicit state passing over lists of records.
-/

namespace MayaOps

/-- Strings are modelled as lists of characters. -/
abbrev Str := List Char

/-- Convert a Lean string literal to the character-list representation. -/
def str (s : String) : Str := s.data

/-! ## Character and string utilities -/

/-- Whitespace test used by the model of the JavaScript trim method. -/
def isWs (c : Char) : Bool := c == ' ' || c == '\t' || c == '\n' || c == '\r'

/-- Model of the JavaScript String.prototype.trim method (ASCII whitespace). -/
def trimStr (s : Str) : Str :=
  ((s.dropWhile isWs).reverse.dropWhile isWs).reverse

/-- Decimal digit test on characters. -/
def isDigitCh (c : Char) : Bool := 48 ≤ c.toNat && c.toNat ≤ 57

/-- Numeric value of a decimal digit character. -/
def digVal (c : Char) : Nat := c.toNat - 48

/-- Decimal digit character for a value below ten. -/
def digCh (n : Nat) : Char := Char.ofNat (48 + n)

/-- Boolean test for one string occurring at the start of another. -/
def strHasPre : Str → Str → Bool
  | [], _ => true
  | _ :: _, [] => false
  | c :: p, d :: s => c == d && strHasPre p s

/-- Boolean substring test: the first argument occurs somewhere inside the
second.  This models the Prisma string filter with the contains operator. -/
def containsSub (pat : Str) : Str → Bool
  | [] => pat.isEmpty
  | c :: t => strHasPre pat (c :: t) || containsSub pat t

theorem strHasPre_iff (p s : Str) : strHasPre p s = true ↔ ∃ r, s = p ++ r := by
  induction p generalizing s with
  | nil => simp [strHasPre]
  | cons c p ih =>
    cases s with
    | nil => simp [strHasPre]
    | cons d t =>
      simp only [strHasPre, Bool.and_eq_true, beq_iff_eq, ih]
      constructor
      · rintro ⟨rfl, r, rfl⟩; exact ⟨r, rfl⟩
      · rintro ⟨r, h⟩
        injection h with h1 h2
        exact ⟨h1.symm, r, h2⟩

theorem containsSub_iff (p s : Str) :
    containsSub p s = true ↔ ∃ a b, s = a ++ p ++ b := by
  induction s with
  | nil =>
    simp only [containsSub, List.isEmpty_iff]
    constructor
    · rintro rfl; exact ⟨[], [], rfl⟩
    · rintro ⟨a, b, h⟩
      rcases List.append_eq_nil.mp h.symm with ⟨h1, h2⟩
      exact (List.append_eq_nil.mp h1).2
  | cons c t ih =>
    simp only [containsSub, Bool.or_eq_true, strHasPre_iff, ih]
    constructor
    · rintro (⟨r, h⟩ | ⟨a, b, h⟩)
      · exact ⟨[], r, by simpa using h⟩
      · exact ⟨c :: a, b, by simp [h]⟩
    · rintro ⟨a, b, h⟩
      cases a with
      | nil => exact Or.inl ⟨b, by simpa using h⟩
      | cons x xs =>
        injection h with h1 h2
        exact Or.inr ⟨xs, b, h2⟩

theorem containsSub_append_self (p r : Str) : containsSub p (p ++ r) = true :=
  (containsSub_iff p (p ++ r)).mpr ⟨[], r, by simp⟩

/-! ## Calendar dates

A civil calendar date, with the usual Gregorian month lengths.  These model
the year, month and day components JavaScript Date values expose. -/

structure CivilDate where
  year : Int
  month : Int
  day : Int
deriving DecidableEq, Repr

/-- Gregorian leap-year rule. -/
def isLeap (y : Int) : Bool := (y % 4 == 0 && y % 100 != 0) || y % 400 == 0

/-- Number of days in a month (month given in the range one to twelve). -/
def daysInMonth (y m : Int) : Int :=
  if m = 1 ∨ m = 3 ∨ m = 5 ∨ m = 7 ∨ m = 8 ∨ m = 10 ∨ m = 12 then 31
  else if m = 2 then (if isLeap y then 29 else 28)
  else 30

/-- Validity of a civil calendar date. -/
def isValidDate (y m d : Int) : Bool :=
  1 ≤ m && m ≤ 12 && 1 ≤ d && d ≤ daysInMonth y m

/-- Successor day in the civil calendar. -/
def nextDay : CivilDate → CivilDate
  | ⟨y, m, d⟩ =>
    if d < daysInMonth y m then ⟨y, m, d + 1⟩
    else if m < 12 then ⟨y, m + 1, 1⟩
    else ⟨y + 1, 1, 1⟩

/-- Predecessor day in the civil calendar. -/
def prevDay : CivilDate → CivilDate
  | ⟨y, m, d⟩ =>
    if 1 < d then ⟨y, m, d - 1⟩
    else if 1 < m then ⟨y, m - 1, daysInMonth y (m - 1)⟩
    else ⟨y - 1, 12, 31⟩

/-- Add a number of days to a civil date. -/
def addDaysNat (dt : CivilDate) : Nat → CivilDate
  | 0 => dt
  | n + 1 => nextDay (addDaysNat dt n)

/-- Subtract a number of days from a civil date. -/
def subDaysNat (dt : CivilDate) : Nat → CivilDate
  | 0 => dt
  | n + 1 => prevDay (subDaysNat dt n)

/-! ## JavaScript Date values

A JSDate is an instant, represented by its local civil date and the minute
of that local day.  The local timezone is a fixed offset of o minutes from
UTC (local clock = UTC clock + o); for the instants arising in this code,
with minus one day less than o less than one day, this representation is
exact, and the instant order coincides with the lexicographic order on the
local civil datetime. -/

structure JSDate where
  date : CivilDate
  minute : Int
deriving DecidableEq, Repr

/-- Model of setHours(0,0,0,0): reset the local time of day to midnight. -/
def setHours0 (t : JSDate) : JSDate := ⟨t.date, 0⟩

/-- Model of getFullYear (local). -/
def getFullYear (t : JSDate) : Int := t.date.year

/-- Model of getMonth (local, zero-indexed). -/
def getMonth0 (t : JSDate) : Int := t.date.month - 1

/-- Model of getDate (local day of month). -/
def getDate (t : JSDate) : Int := t.date.day

/-- Comparison of instants (model of comparing getTime values): for a fixed
timezone offset this is the lexicographic order on the local civil datetime. -/
def jsLe (a b : JSDate) : Bool :=
  if a.date.year ≠ b.date.year then decide (a.date.year < b.date.year)
  else if a.date.month ≠ b.date.month then decide (a.date.month < b.date.month)
  else if a.date.day ≠ b.date.day then decide (a.date.day < b.date.day)
  else decide (a.minute ≤ b.minute)

/-- The instant UTC-midnight of the given civil date, expressed as a local
civil datetime in the timezone with offset o minutes (local = UTC + o).
This models an ECMAScript Date produced from a date-only ISO string, which
is interpreted in UTC. -/
def jsFromUTCMidnight (o : Int) (y m d : Int) : JSDate :=
  if 0 ≤ o then ⟨⟨y, m, d⟩, o⟩ else ⟨prevDay ⟨y, m, d⟩, o + 1440⟩

/-- Model of the ECMAScript constructor new Date(year, month0, day): the
arguments are interpreted in local time, and out-of-range month or day
values roll over into adjacent months and years. -/
def jsMakeLocalDate (y m0 d : Int) : CivilDate :=
  if 1 ≤ d then
    addDaysNat ⟨(y * 12 + m0) / 12, (y * 12 + m0) % 12 + 1, 1⟩ (d - 1).toNat
  else
    subDaysNat ⟨(y * 12 + m0) / 12, (y * 12 + m0) % 12 + 1, 1⟩ (1 - d).toNat

/-- Constructor new Date(year, month0, day) as an instant (local midnight). -/
def jsFromLocalParts (y m0 d : Int) : JSDate := ⟨jsMakeLocalDate y m0 d, 0⟩

/-! ## Date-string parsing

parseDate in lib/google-sheets-tasks.ts (lines 739 to 777) accepts the ISO
shape YYYY-MM-DD, then the shape D/M/YYYY with one or two digit day and
month, and finally falls back to the generic Date constructor on the
string. -/

/-- Decompose a string of the exact shape YYYY-MM-DD into year, month and
day numbers; this is the model of the first regular expression test of
parseDate. -/
def isoSplit (s : Str) : Option (Int × Int × Int) :=
  match s with
  | [a, b, c, d, e, f, g, h, i, j] =>
    if isDigitCh a && isDigitCh b && isDigitCh c && isDigitCh d && e == '-' &&
       isDigitCh f && isDigitCh g && h == '-' && isDigitCh i && isDigitCh j then
      some (Int.ofNat (digVal a * 1000 + digVal b * 100 + digVal c * 10 + digVal d),
            Int.ofNat (digVal f * 10 + digVal g),
            Int.ofNat (digVal i * 10 + digVal j))
    else none
  | _ => none

/-- Decompose a string of the shape N/N/YYYY, with one or two digits in each
of the first two fields, into those two numbers and the year; this is the
model of the second regular expression test of parseDate. -/
def slashSplit (s : Str) : Option (Int × Int × Int) :=
  match s with
  | [a, b, c, d, e, f, g, h] =>
    if isDigitCh a && b == '/' && isDigitCh c && d == '/' &&
       isDigitCh e && isDigitCh f && isDigitCh g && isDigitCh h then
      some (Int.ofNat (digVal a), Int.ofNat (digVal c),
            Int.ofNat (digVal e * 1000 + digVal f * 100 + digVal g * 10 + digVal h))
    else none
  | [a, b, c, d, e, f, g, h, i] =>
    if isDigitCh a && b == '/' && isDigitCh c && isDigitCh d && e == '/' &&
       isDigitCh f && isDigitCh g && isDigitCh h && isDigitCh i then
      some (Int.ofNat (digVal a), Int.ofNat (digVal c * 10 + digVal d),
            Int.ofNat (digVal f * 1000 + digVal g * 100 + digVal h * 10 + digVal i))
    else if isDigitCh a && isDigitCh b && c == '/' && isDigitCh d && e == '/' &&
       isDigitCh f && isDigitCh g && isDigitCh h && isDigitCh i then
      some (Int.ofNat (digVal a * 10 + digVal b), Int.ofNat (digVal d),
            Int.ofNat (digVal f * 1000 + digVal g * 100 + digVal h * 10 + digVal i))
    else none
  | [a, b, c, d, e, f, g, h, i, j] =>
    if isDigitCh a && isDigitCh b && c == '/' && isDigitCh d && isDigitCh e &&
       f == '/' && isDigitCh g && isDigitCh h && isDigitCh i && isDigitCh j then
      some (Int.ofNat (digVal a * 10 + digVal b), Int.ofNat (digVal d * 10 + digVal e),
            Int.ofNat (digVal g * 1000 + digVal h * 100 + digVal i * 10 + digVal j))
    else none
  | _ => none

/-- Modelled host primitive: the generic string form of the ECMAScript Date
constructor, new Date(string), as implemented by the Node runtime the
repository targets, restricted to the numeric shapes that can reach the
fallback in parseDate.  A string of ISO shape denotes the UTC midnight of
its components when they form a real calendar date and is otherwise
invalid; a slash-separated numeric string is read as month/day/year (the
United States convention) in local time when its components form a real
calendar date and is otherwise invalid. -/
def jsDateFallback (o : Int) (s : Str) : Option JSDate :=
  match isoSplit s with
  | some (y, m, d) =>
    if isValidDate y m d then some (jsFromUTCMidnight o y m d) else none
  | none =>
    match slashSplit s with
    | some (p, q, y) =>
      if isValidDate y p q then some ⟨⟨y, p, q⟩, 0⟩ else none
    | none => none

/-- Model of parseDate from lib/google-sheets-tasks.ts (lines 739 to 777):
try the ISO shape, then the D/M/YYYY shape with a round-trip validity check
through the rolled Date constructor, then the generic Date constructor. -/
def parseDate (o : Int) (s : Str) : Option JSDate :=
  let t := trimStr s
  match isoSplit t with
  | some (y, m, d) =>
    if isValidDate y m d then some (jsFromUTCMidnight o y m d) else jsDateFallback o t
  | none =>
    match slashSplit t with
    | some (p, q, y) =>
      let dt := jsFromLocalParts y (q - 1) p
      if getDate dt == p && getMonth0 dt == q - 1 && getFullYear dt == y then some dt
      else jsDateFallback o t
    | none => jsDateFallback o t

/-! ## Sheet rows and column mapping

A raw sheet cell is an optional string (a missing entry models undefined or
null).  Parsed rows and column mappings are association lists of string keys
to string values, mirroring plain JavaScript objects: key order is first
insertion order and writing an existing key overwrites in place. -/

abbrev Cell := Option Str

abbrev RawRow := List Cell

/-- Parsed row or column mapping: field name to string value, in insertion
order. -/
abbrev TaskRow := List (Str × Str)

/-- Read a cell of a raw row; indices past the end are undefined. -/
def cellAt (row : RawRow) (i : Nat) : Cell := row.getD i none

/-- Association-list lookup (model of reading a JavaScript object key). -/
def lookupA {α : Type} (l : List (Str × α)) (k : Str) : Option α :=
  (l.find? (fun p => p.1 == k)).map (fun p => p.2)

/-- Association-list write (model of assigning a JavaScript object key):
overwrite in place when the key exists, append otherwise. -/
def upsertA {α : Type} (l : List (Str × α)) (k : Str) (v : α) : List (Str × α) :=
  match l with
  | [] => [(k, v)]
  | p :: t => if p.1 == k then (k, v) :: t else p :: upsertA t k v

/-- Truthy read of a string field of a parsed row: a missing key and the
empty string are both falsy. -/
def truthyGet (r : TaskRow) (k : Str) : Option Str :=
  match lookupA r k with
  | some v => if v = [] then none else some v
  | none => none

/-- Build the reverse index from internal field name to sheet column index
(parseTaskRows lines 791 to 798): for each mapping entry look the sheet
column up in the header row, silently skipping columns that are absent. -/
def buildFieldToIndex (mapping : List (Str × Str)) (hdr : RawRow) :
    List (Str × Nat) :=
  mapping.foldl
    (fun acc p =>
      match hdr.findIdx? (fun c => c == some p.1) with
      | some i => upsertA acc p.2 i
      | none => acc)
    []

/-- Map one raw data row through the reverse index (parseTaskRows lines 805
to 813): each present, non-empty cell is stored trimmed under its field. -/
def mapRowFields (fti : List (Str × Nat)) (row : RawRow) : TaskRow :=
  fti.foldl
    (fun acc p =>
      match cellAt row p.2 with
      | some v => if v = [] then acc else upsertA acc p.1 (trimStr v)
      | none => acc)
    []

/-- Model of parseTaskRows (lib/google-sheets-tasks.ts lines 782 to 822):
skip the header row, skip empty rows, map the remaining rows through the
column mapping and keep only rows with a truthy title. -/
def parseTaskRows (rows : List RawRow) (mapping : List (Str × Str))
    (hdr : RawRow) : List TaskRow :=
  if rows.length ≤ 1 then []
  else
    let fti := buildFieldToIndex mapping hdr
    (rows.drop 1).filterMap
      (fun row =>
        if row = [] then none
        else
          let t := mapRowFields fti row
          match truthyGet t (str "title") with
          | some _ => some t
          | none => none)

/-- Model of parsePropertyRows (lib/google-sheets-properties.ts lines 24 to
64): identical to parseTaskRows except that the mandatory field is the
address. -/
def parsePropertyRows (rows : List RawRow) (mapping : List (Str × Str))
    (hdr : RawRow) : List TaskRow :=
  if rows.length ≤ 1 then []
  else
    let fti := buildFieldToIndex mapping hdr
    (rows.drop 1).filterMap
      (fun row =>
        if row = [] then none
        else
          let t := mapRowFields fti row
          match truthyGet t (str "address") with
          | some _ => some t
          | none => none)

/-! ## Database model

Explicit state passing over lists of records models the Prisma tables
the sync touches.  findFirst is the first list element satisfying the filter;
create appends a fresh record using the next free id; update rewrites the
record with the given id in place. -/

structure Task where
  id : Nat
  companyId : Nat
  propertyId : Nat
  title : Str
  description : Option Str
  status : Str
  scheduledDate : Option JSDate
  moveInDate : Option JSDate
  assignedUserId : Option Nat
deriving DecidableEq, Repr

structure User where
  id : Nat
  email : Str
  companyId : Nat
  role : Str
  isActive : Bool
deriving DecidableEq, Repr

structure Property where
  id : Nat
  companyId : Nat
  address : Str
  postcode : Option Str
  propertyType : Str
  unitCount : Int
  pricePerUnit : Int
  totalPrice : Int
  notes : Option Str
  isActive : Bool
  sheetLastSyncedAt : Option Int
deriving DecidableEq, Repr

structure DB where
  tasks : List Task
  users : List User
  properties : List Property
  adminConfigs : List (Nat × Int)
  notifLog : List (Nat × Nat)
  nextTaskId : Nat
  nextPropertyId : Nat
deriving DecidableEq, Repr

/-! ## Task import (importTasksFromSheet, lines 827 to 1096) -/

/-- The per-import context: timezone offset, the owning property, the task
field the unique column maps to, and an oracle deciding which notification
dispatches fail (failures are caught in the source and only suppress the
side effect). -/
structure TaskImportCtx where
  tzOffset : Int
  propertyId : Nat
  companyId : Nat
  propertyAddress : Str
  uniqueTaskField : Option Str
  notifFail : Nat → Nat → Bool

/-- Resolve the unique column to the task field it maps to (lines 863 to
874): a falsy mapping value yields null. -/
def computeUniqueTaskField (mapping : List (Str × Str)) (uniqueColumn : Option Str) :
    Option Str :=
  match uniqueColumn with
  | some uc =>
    if uc = [] then none
    else
      match lookupA mapping uc with
      | some f => if f = [] then none else some f
      | none => none
  | none => none

/-- Extract the trimmed unique value of a row (lines 881 to 887): present
only when the unique field is configured and the row value is truthy. -/
def extractUniqueValue (uf : Option Str) (row : TaskRow) : Option Str :=
  match uf with
  | some f =>
    match truthyGet row f with
    | some v => some (trimStr v)
    | none => none
  | none => none

/-- Parse the scheduled date of a row (lines 890 to 898): the outer none is
a parse failure aborting the row, some none means the field is absent. -/
def parsedSched (o : Int) (row : TaskRow) : Option (Option JSDate) :=
  match truthyGet row (str "scheduledDate") with
  | none => some none
  | some v =>
    match parseDate o v with
    | none => none
    | some d => some (some d)

/-- Parse the move-in date of a row (lines 901 to 909). -/
def parsedMove (o : Int) (row : TaskRow) : Option (Option JSDate) :=
  match truthyGet row (str "moveInDate") with
  | none => some none
  | some v =>
    match parseDate o v with
    | none => none
    | some d => some (some d)

/-- Row error message for an unparseable scheduled date (line 895). -/
def schedErrMsg (row : TaskRow) : Str :=
  str "Invalid scheduled date format: " ++ (truthyGet row (str "scheduledDate")).getD []
    ++ str ". Expected YYYY-MM-DD or DD/MM/YYYY"

/-- Row error message for an unparseable move-in date (line 906). -/
def moveErrMsg (row : TaskRow) : Str :=
  str "Invalid move-in date format: " ++ (truthyGet row (str "moveInDate")).getD []
    ++ str ". Expected YYYY-MM-DD or DD/MM/YYYY"

/-- Resolve the assigned user (lines 920 to 929): look the email up and
accept the match only when the user belongs to the same company as the
owning property; otherwise leave the task unassigned. -/
def resolveAssignee (db : DB) (companyId : Nat) (row : TaskRow) : Option Nat :=
  match truthyGet row (str "assignedUserEmail") with
  | none => none
  | some e =>
    match db.users.find? (fun u => u.email == e) with
    | some u => if u.companyId == companyId then some u.id else none
    | none => none

/-- The marker text embedded in descriptions: the literal [UNIQUE:value]. -/
def markerOf (v : Str) : Str := ('[' :: str "UNIQUE:") ++ v ++ [']']

/-- Duplicate detection (lines 931 to 958): only the unique marker is
consulted; when no unique value exists no search happens at all. -/
def findExistingTask (db : DB) (pid : Nat) (uniqueValue : Option Str) :
    Option Task :=
  match uniqueValue with
  | some v =>
    db.tasks.find?
      (fun t =>
        t.propertyId == pid &&
          (match t.description with
           | some d => containsSub (markerOf v) d
           | none => false))
  | none => none

/-- Build the persisted description (lines 960 to 967): prepend the unique
marker to the sheet description when a unique value exists. -/
def buildDescription (uniqueValue : Option Str) (rowDesc : Option Str) :
    Option Str :=
  match uniqueValue with
  | none => rowDesc
  | some v =>
    match rowDesc with
    | some d => some (markerOf v ++ (' ' :: d))
    | none => some (markerOf v)

/-- Derived status (lines 969 to 980): both dates present with the move-in
date not before the scheduled date forces RESERVED; a move-in date alone
also forces RESERVED; otherwise the sheet status or PLANNED. -/
def deriveStatus (moveInDate scheduledDate : Option JSDate) (rowStatus : Option Str) :
    Str :=
  let base := rowStatus.getD (str "PLANNED")
  match moveInDate, scheduledDate with
  | some m, some s => if jsLe s m then str "RESERVED" else base
  | some _, none => str "RESERVED"
  | none, _ => base

/-- The fields written on create or update (lines 982 to 991). -/
structure TaskData where
  companyId : Nat
  propertyId : Nat
  title : Str
  description : Option Str
  status : Str
  scheduledDate : Option JSDate
  moveInDate : Option JSDate
  assignedUserId : Option Nat
deriving DecidableEq, Repr

/-- Instantiate the written fields as a task record with the given id. -/
def applyData (id : Nat) (d : TaskData) : Task :=
  ⟨id, d.companyId, d.propertyId, d.title, d.description, d.status,
    d.scheduledDate, d.moveInDate, d.assignedUserId⟩

/-- One notification dispatch to one recipient; a failure is caught in the
source and leaves no trace, a success is recorded in the log. -/
def dispatchTo (fail : Nat → Nat → Bool) (db : DB) (uid tid : Nat) : DB :=
  if fail uid tid then db else { db with notifLog := db.notifLog ++ [(uid, tid)] }

/-- Active owners and managers of a company (lines 1033 to 1040). -/
def ownersAndManagers (db : DB) (cid : Nat) : List User :=
  db.users.filter
    (fun u => u.companyId == cid && (u.role == str "OWNER" || u.role == str "MANAGER")
      && u.isActive)

/-- Notification side effect on creation (lines 1009 to 1069): notify the
assignee when one exists, otherwise every active owner or manager. -/
def dispatchNotifications (ctx : TaskImportCtx) (db : DB) (tid : Nat)
    (assignee : Option Nat) : DB :=
  match assignee with
  | some uid => dispatchTo ctx.notifFail db uid tid
  | none =>
    (ownersAndManagers db ctx.companyId).foldl
      (fun d u => dispatchTo ctx.notifFail d u.id tid) db

/-- Accumulated state of the row-processing loop. -/
structure LoopState where
  db : DB
  createdIds : List Nat
  updatedIds : List Nat
  errs : List (TaskRow × Str)
deriving Repr

/-- Process one parsed task row (the body of the loop at lines 878 to 1074):
extract the unique value, parse and normalize the dates (a failure records a
row error and moves on), resolve the assignee, run duplicate detection,
build the written fields, then update the found task or create a new one,
dispatching notifications on creation only. -/
def processTaskRow (ctx : TaskImportCtx) (s : LoopState) (row : TaskRow) :
    LoopState :=
  let uniqueValue := extractUniqueValue ctx.uniqueTaskField row
  match parsedSched ctx.tzOffset row with
  | none => { s with errs := s.errs ++ [(row, schedErrMsg row)] }
  | some sched0 =>
    match parsedMove ctx.tzOffset row with
    | none => { s with errs := s.errs ++ [(row, moveErrMsg row)] }
    | some move0 =>
      let scheduledDate := sched0.map setHours0
      let moveInDate := move0.map setHours0
      let assignedUserId := resolveAssignee s.db ctx.companyId row
      let existingTask := findExistingTask s.db ctx.propertyId uniqueValue
      let description := buildDescription uniqueValue (truthyGet row (str "description"))
      let status := deriveStatus moveInDate scheduledDate (truthyGet row (str "status"))
      let data : TaskData :=
        ⟨ctx.companyId, ctx.propertyId,
          (truthyGet row (str "title")).getD (str "Untitled Task"),
          description, status, scheduledDate, moveInDate, assignedUserId⟩
      match existingTask with
      | some t0 =>
        { s with
          db := { s.db with
                  tasks := s.db.tasks.map
                    (fun t => if t.id = t0.id then applyData t.id data else t) }
          updatedIds := s.updatedIds ++ [t0.id] }
      | none =>
        let nid := s.db.nextTaskId
        let db1 := { s.db with tasks := s.db.tasks ++ [applyData nid data],
                               nextTaskId := nid + 1 }
        let db2 := dispatchNotifications ctx db1 nid data.assignedUserId
        { s with db := db2, createdIds := s.createdIds ++ [nid] }

/-- Aggregate result returned by an import call. -/
structure SyncResult where
  success : Bool
  created : Nat
  updated : Nat
  errors : Nat
  errorDetails : List (TaskRow × Str)
deriving Repr

/-- Model of importTasksFromSheet (lib/google-sheets-tasks.ts lines 827 to
1096).  The sheet rows are passed in directly in place of the fetch; the
property lookup failure and the empty-sheet check are the fatal error paths
that reject the whole call; the loop then classifies every parsed row, and
finally the sync timestamp of the property is written. -/
def importTasksFromSheet (o : Int) (notifFail : Nat → Nat → Bool) (now : Int)
    (db : DB) (propertyId : Nat) (rows : List RawRow)
    (mapping : List (Str × Str)) (uniqueColumn : Option Str) :
    Except Str (DB × SyncResult) :=
  match db.properties.find? (fun p => p.id == propertyId) with
  | none => .error (str "Property not found")
  | some prop =>
    if rows = [] then .error (str "No data found in sheet")
    else
      let hdr := rows.headD []
      let taskRows := parseTaskRows rows mapping hdr
      let uf := computeUniqueTaskField mapping uniqueColumn
      let ctx : TaskImportCtx :=
        ⟨o, propertyId, prop.companyId, prop.address, uf, notifFail⟩
      let final := taskRows.foldl (processTaskRow ctx) ⟨db, [], [], []⟩
      let db2 :=
        { final.db with
          properties := final.db.properties.map
            (fun p => if p.id = propertyId then { p with sheetLastSyncedAt := some now }
                      else p) }
      .ok (db2, ⟨true, final.createdIds.length, final.updatedIds.length,
                 final.errs.length, final.errs⟩)

/-! ## Property import (importPropertiesFromSheet, lines 69 to 248) -/

/-- Run of leading decimal digits. -/
def takeDigits (s : Str) : Str := s.takeWhile isDigitCh

/-- Numeric value of a digit string. -/
def digitsToNat (s : Str) : Nat := s.foldl (fun a c => a * 10 + digVal c) 0

/-- Modelled host primitive: JavaScript parseInt with radix ten.  Leading
whitespace is skipped, an optional sign is read, then the longest leading
digit run; none models NaN. -/
def jsParseInt (s : Str) : Option Int :=
  let t := trimStr s
  match t with
  | '-' :: r =>
    let ds := takeDigits r
    if ds = [] then none else some (-(digitsToNat ds : Int))
  | '+' :: r =>
    let ds := takeDigits r
    if ds = [] then none else some ((digitsToNat ds : Int))
  | _ =>
    let ds := takeDigits t
    if ds = [] then none else some ((digitsToNat ds : Int))

/-- ASCII lowercase conversion, the model of toLowerCase on the inputs this
code sees. -/
def toLowerStr (s : Str) : Str :=
  s.map (fun c => if 'A' ≤ c && c ≤ 'Z' then Char.ofNat (c.toNat + 32) else c)

/-- The closed set of recognized property types (line 152). -/
def validPropertyTypes : List Str :=
  [str "block", str "apartment", str "hmo", str "house", str "commercial"]

/-- Extraction of the unique value for a property row (lines 113 to 138):
join the parsed row back to the first raw data row whose address cell,
trimmed, equals the parsed address, then read the unique column cell of
that raw row; empty after trim counts as absent. -/
def propertyUniqueValue (rows : List RawRow) (uci : Option Nat)
    (addressIdx : Option Nat) (row : TaskRow) : Option Str :=
  match uci, addressIdx, truthyGet row (str "address") with
  | some ui, some ai, some addr =>
    match (rows.drop 1).find?
        (fun raw =>
          !raw.isEmpty &&
            (match cellAt raw ai with
             | some v => !v.isEmpty && trimStr v == trimStr addr
             | none => false)) with
    | some raw =>
      match cellAt raw ui with
      | some v =>
        if v = [] then none
        else if trimStr v = [] then none else some (trimStr v)
      | none => none
    | none => none
  | _, _, _ => none

/-- Duplicate detection for properties (lines 178 to 200): the source tests
whether a unique value is present, but both branches run the identical
query by company, exact address and postcode; the stored notes are never
searched for a marker. -/
def findExistingProperty (db : DB) (cid : Nat) (addr : Str) (pc : Option Str)
    (uniqueValue : Option Str) : Option Property :=
  if (match uniqueValue with
      | some v => !(trimStr v).isEmpty
      | none => false) then
    db.properties.find?
      (fun p => p.companyId == cid && p.address == addr && p.postcode == pc)
  else
    db.properties.find?
      (fun p => p.companyId == cid && p.address == addr && p.postcode == pc)

/-- The price per unit always comes from the admin configuration (lines 162
to 176): a configured non-zero price wins, otherwise one.  Prices are
modelled as integers; no claim concerns decimal arithmetic. -/
def configuredPrice (db : DB) (cid : Nat) : Int :=
  match db.adminConfigs.find? (fun c => c.1 == cid) with
  | some c => if c.2 == 0 then 1 else c.2
  | none => 1

/-- Process one parsed property row (the body of the loop at lines 109 to
235).  The NaN produced by parseInt on a non-numeric unit count makes the
Prisma write throw in the source, which the per-row catch turns into a row
error; this is modelled as the explicit unit-count error branch. -/
def processPropertyRow (companyId : Nat) (rows : List RawRow) (uci : Option Nat)
    (fti : List (Str × Nat)) (s : LoopState) (row : TaskRow) : LoopState :=
  let uniqueValue := propertyUniqueValue rows uci (lookupA fti (str "address")) row
  match truthyGet row (str "address") with
  | none => { s with errs := s.errs ++ [(row, str "Address is required")] }
  | some addr =>
    match truthyGet row (str "propertyType") with
    | none => { s with errs := s.errs ++ [(row, str "Property type is required")] }
    | some pt0 =>
      let propertyType := toLowerStr pt0
      if ¬ validPropertyTypes.contains propertyType then
        { s with errs := s.errs ++ [(row, str "Invalid property type: " ++ pt0)] }
      else
        let unitCountVal : Option Int :=
          match truthyGet row (str "unitCount") with
          | some v => jsParseInt v
          | none => some 1
        match unitCountVal with
        | none => { s with errs := s.errs ++ [(row, str "Invalid unit count")] }
        | some unitCount =>
          let price := configuredPrice s.db companyId
          let totalPrice := price * unitCount
          let pc := truthyGet row (str "postcode")
          let existing := findExistingProperty s.db companyId addr pc uniqueValue
          let notes := truthyGet row (str "notes")
          match existing with
          | some p0 =>
            { s with
              db := { s.db with
                      properties := s.db.properties.map
                        (fun p =>
                          if p.id = p0.id then
                            { p with companyId := companyId, address := addr,
                                     postcode := pc, propertyType := propertyType,
                                     unitCount := unitCount, pricePerUnit := price,
                                     totalPrice := totalPrice, notes := notes,
                                     isActive := true }
                          else p) }
              updatedIds := s.updatedIds ++ [p0.id] }
          | none =>
            let nid := s.db.nextPropertyId
            let newProp : Property :=
              ⟨nid, companyId, addr, pc, propertyType, unitCount, price,
                totalPrice, notes, true, none⟩
            { s with
              db := { s.db with properties := s.db.properties ++ [newProp],
                                nextPropertyId := nid + 1 }
              createdIds := s.createdIds ++ [nid] }

/-- Model of importPropertiesFromSheet (lib/google-sheets-properties.ts
lines 69 to 248). -/
def importPropertiesFromSheet (db : DB) (companyId : Nat) (rows : List RawRow)
    (mapping : List (Str × Str)) (uniqueColumn : Option Str) :
    Except Str (DB × SyncResult) :=
  if rows = [] then .error (str "No data found in sheet")
  else
    let hdr := rows.headD []
    let propertyRows := parsePropertyRows rows mapping hdr
    let uci : Option Nat :=
      match uniqueColumn with
      | some uc => if uc = [] then none else hdr.findIdx? (fun c => c == some uc)
      | none => none
    let fti := buildFieldToIndex mapping hdr
    let final := propertyRows.foldl (processPropertyRow companyId rows uci fti)
      ⟨db, [], [], []⟩
    .ok (final.db, ⟨true, final.createdIds.length, final.updatedIds.length,
                    final.errs.length, final.errs⟩)

/-! ## Structural lemmas about the task-import loop -/

/-- Projection of a database to everything except the notification log. -/
def DB.core (db : DB) :
    List Task × List User × List Property × List (Nat × Int) × Nat × Nat :=
  (db.tasks, db.users, db.properties, db.adminConfigs, db.nextTaskId,
    db.nextPropertyId)

theorem dispatchTo_core (f : Nat → Nat → Bool) (db : DB) (u t : Nat) :
    (dispatchTo f db u t).core = db.core := by
  unfold dispatchTo
  split <;> rfl

theorem foldl_dispatchTo_core (f : Nat → Nat → Bool) (tid : Nat) :
    ∀ (l : List User) (db : DB),
      (l.foldl (fun d u => dispatchTo f d u.id tid) db).core = db.core := by
  intro l
  induction l with
  | nil => intro db; rfl
  | cons u l ih =>
    intro db
    simp only [List.foldl_cons]
    rw [ih, dispatchTo_core]

theorem dispatchNotifications_core (ctx : TaskImportCtx) (db : DB) (tid : Nat)
    (a : Option Nat) : (dispatchNotifications ctx db tid a).core = db.core := by
  unfold dispatchNotifications
  cases a with
  | some uid => exact dispatchTo_core _ _ _ _
  | none => exact foldl_dispatchTo_core _ _ _ _

theorem dispatchNotifications_tasks (ctx : TaskImportCtx) (db : DB) (tid : Nat)
    (a : Option Nat) : (dispatchNotifications ctx db tid a).tasks = db.tasks :=
  congrArg (fun c => c.1) (dispatchNotifications_core ctx db tid a)

/-- Row-level parse outcome: the error message recorded for the row, when
one of its dates does not parse. -/
def rowErr (o : Int) (r : TaskRow) : Option Str :=
  match parsedSched o r with
  | none => some (schedErrMsg r)
  | some _ =>
    match parsedMove o r with
    | none => some (moveErrMsg r)
    | some _ => none

/-- The fields written for a row whose dates parsed, as a function of the
database state the row is processed against. -/
def cleanRowData (ctx : TaskImportCtx) (db : DB) (row : TaskRow)
    (sd md : Option JSDate) : TaskData :=
  ⟨ctx.companyId, ctx.propertyId,
    (truthyGet row (str "title")).getD (str "Untitled Task"),
    buildDescription (extractUniqueValue ctx.uniqueTaskField row)
      (truthyGet row (str "description")),
    deriveStatus (md.map setHours0) (sd.map setHours0) (truthyGet row (str "status")),
    sd.map setHours0, md.map setHours0, resolveAssignee db ctx.companyId row⟩

theorem processTaskRow_schedErr (ctx : TaskImportCtx) (s : LoopState) (row : TaskRow)
    (hs : parsedSched ctx.tzOffset row = none) :
    processTaskRow ctx s row = { s with errs := s.errs ++ [(row, schedErrMsg row)] } := by
  unfold processTaskRow
  rw [hs]

theorem processTaskRow_moveErr (ctx : TaskImportCtx) (s : LoopState) (row : TaskRow)
    (sd : Option JSDate) (hs : parsedSched ctx.tzOffset row = some sd)
    (hm : parsedMove ctx.tzOffset row = none) :
    processTaskRow ctx s row = { s with errs := s.errs ++ [(row, moveErrMsg row)] } := by
  unfold processTaskRow
  rw [hs, hm]

theorem processTaskRow_clean (ctx : TaskImportCtx) (s : LoopState) (row : TaskRow)
    (sd md : Option JSDate) (hs : parsedSched ctx.tzOffset row = some sd)
    (hm : parsedMove ctx.tzOffset row = some md) :
    processTaskRow ctx s row =
      match findExistingTask s.db ctx.propertyId
          (extractUniqueValue ctx.uniqueTaskField row) with
      | some t0 =>
        { s with
          db := { s.db with
                  tasks := s.db.tasks.map
                    (fun t =>
                      if t.id = t0.id then
                        applyData t.id (cleanRowData ctx s.db row sd md)
                      else t) }
          updatedIds := s.updatedIds ++ [t0.id] }
      | none =>
        { s with
          db := dispatchNotifications ctx
            { s.db with
              tasks := s.db.tasks ++
                [applyData s.db.nextTaskId (cleanRowData ctx s.db row sd md)],
              nextTaskId := s.db.nextTaskId + 1 }
            s.db.nextTaskId (cleanRowData ctx s.db row sd md).assignedUserId
          createdIds := s.createdIds ++ [s.db.nextTaskId] } := by
  unfold processTaskRow cleanRowData
  rw [hs, hm]

/-- Every row lands in exactly one of the three buckets. -/
theorem processTaskRow_counts (ctx : TaskImportCtx) (s : LoopState) (row : TaskRow) :
    (processTaskRow ctx s row).createdIds.length
      + (processTaskRow ctx s row).updatedIds.length
      + (processTaskRow ctx s row).errs.length
    = s.createdIds.length + s.updatedIds.length + s.errs.length + 1 := by
  rcases hs : parsedSched ctx.tzOffset row with _ | sd
  · rw [processTaskRow_schedErr ctx s row hs]
    simp; omega
  · rcases hm : parsedMove ctx.tzOffset row with _ | md
    · rw [processTaskRow_moveErr ctx s row sd hs hm]
      simp; omega
    · rw [processTaskRow_clean ctx s row sd md hs hm]
      rcases findExistingTask s.db ctx.propertyId
          (extractUniqueValue ctx.uniqueTaskField row) with _ | t0 <;>
        · simp; omega

theorem run_counts (ctx : TaskImportCtx) (rows : List TaskRow) :
    ∀ s : LoopState,
      (rows.foldl (processTaskRow ctx) s).createdIds.length
        + (rows.foldl (processTaskRow ctx) s).updatedIds.length
        + (rows.foldl (processTaskRow ctx) s).errs.length
      = s.createdIds.length + s.updatedIds.length + s.errs.length + rows.length := by
  induction rows with
  | nil => intro s; simp
  | cons r rows ih =>
    intro s
    simp only [List.foldl_cons, List.length_cons]
    rw [ih]
    have := processTaskRow_counts ctx s r
    omega

/-- Error accounting: the recorded error list is exactly the rows whose
dates fail to parse, in order, paired with their messages. -/
theorem processTaskRow_errs (ctx : TaskImportCtx) (s : LoopState) (row : TaskRow) :
    (processTaskRow ctx s row).errs =
      s.errs ++ (match rowErr ctx.tzOffset row with
                 | some m => [(row, m)]
                 | none => []) := by
  rcases hs : parsedSched ctx.tzOffset row with _ | sd
  · rw [processTaskRow_schedErr ctx s row hs]
    simp [rowErr, hs]
  · rcases hm : parsedMove ctx.tzOffset row with _ | md
    · rw [processTaskRow_moveErr ctx s row sd hs hm]
      simp [rowErr, hs, hm]
    · rw [processTaskRow_clean ctx s row sd md hs hm]
      rcases findExistingTask s.db ctx.propertyId
          (extractUniqueValue ctx.uniqueTaskField row) with _ | t0 <;>
        simp [rowErr, hs, hm]

theorem run_errs (ctx : TaskImportCtx) (rows : List TaskRow) :
    ∀ s : LoopState,
      (rows.foldl (processTaskRow ctx) s).errs =
        s.errs ++ rows.filterMap
          (fun r => (rowErr ctx.tzOffset r).map (fun m => (r, m))) := by
  induction rows with
  | nil => intro s; simp
  | cons r rows ih =>
    intro s
    simp only [List.foldl_cons, List.filterMap_cons]
    rw [ih, processTaskRow_errs]
    rcases rowErr ctx.tzOffset r with _ | m <;> simp

theorem importTasks_unfold (o : Int) (f : Nat → Nat → Bool) (now : Int) (db : DB)
    (pid : Nat) (rows : List RawRow) (mapping : List (Str × Str)) (uc : Option Str)
    (prop : Property) (hp : db.properties.find? (fun p => p.id == pid) = some prop)
    (hr : rows ≠ []) :
    importTasksFromSheet o f now db pid rows mapping uc =
      (let ctx : TaskImportCtx := ⟨o, pid, prop.companyId, prop.address,
         computeUniqueTaskField mapping uc, f⟩
       let final := (parseTaskRows rows mapping (rows.headD [])).foldl
         (processTaskRow ctx) ⟨db, [], [], []⟩
       .ok ({ final.db with
              properties := final.db.properties.map
                (fun p =>
                  if p.id = pid then { p with sheetLastSyncedAt := some now } else p) },
            ⟨true, final.createdIds.length, final.updatedIds.length,
             final.errs.length, final.errs⟩)) := by
  unfold importTasksFromSheet
  rw [hp]
  simp [hr]

/-- Normalized scheduled date of a row, as computed by the loop body. -/
def rowSchedNorm (o : Int) (r : TaskRow) : Option JSDate :=
  match parsedSched o r with
  | some d => d.map setHours0
  | none => none

/-- Normalized move-in date of a row, as computed by the loop body. -/
def rowMoveNorm (o : Int) (r : TaskRow) : Option JSDate :=
  match parsedMove o r with
  | some d => d.map setHours0
  | none => none

/-- Every task present after a row is processed either predates the row or
carries the status derived from the normalized dates of that row. -/
theorem processTaskRow_status (ctx : TaskImportCtx) (st : LoopState) (row : TaskRow)
    (T : Task) (hT : T ∈ (processTaskRow ctx st row).db.tasks) :
    T ∈ st.db.tasks ∨
      T.status = deriveStatus (rowMoveNorm ctx.tzOffset row)
        (rowSchedNorm ctx.tzOffset row) (truthyGet row (str "status")) := by
  rcases hs : parsedSched ctx.tzOffset row with _ | sd
  · rw [processTaskRow_schedErr ctx st row hs] at hT
    exact Or.inl hT
  · rcases hm : parsedMove ctx.tzOffset row with _ | md
    · rw [processTaskRow_moveErr ctx st row sd hs hm] at hT
      exact Or.inl hT
    · rw [processTaskRow_clean ctx st row sd md hs hm] at hT
      have hnorm : deriveStatus (md.map setHours0) (sd.map setHours0)
          (truthyGet row (str "status"))
          = deriveStatus (rowMoveNorm ctx.tzOffset row) (rowSchedNorm ctx.tzOffset row)
              (truthyGet row (str "status")) := by
        rw [rowMoveNorm, rowSchedNorm, hs, hm]
      rcases hf : findExistingTask st.db ctx.propertyId
          (extractUniqueValue ctx.uniqueTaskField row) with _ | t0
      · rw [hf] at hT
        simp only [dispatchNotifications_tasks] at hT
        rcases List.mem_append.mp hT with h | h
        · exact Or.inl h
        · refine Or.inr ?_
          rw [List.mem_singleton.mp h]
          rw [← hnorm]
          rfl
      · rw [hf] at hT
        simp only at hT
        rcases List.mem_map.mp hT with ⟨t, ht, heq⟩
        by_cases hid : t.id = t0.id
        · refine Or.inr ?_
          rw [← heq, if_pos hid]
          rw [← hnorm]
          rfl
        · rw [← heq, if_neg hid]
          exact Or.inl ht

/-- Claim C4: for every task row where both moveInDate and scheduledDate
parse and, after midnight normalization, the move-in date is not before the
scheduled date, the persisted status is RESERVED regardless of any sheet
status; when only a move-in date is present the status is also RESERVED;
in every other case the sheet status, or PLANNED when absent, is persisted.
The final conjunct ties the derivation to the loop body: every task a row
writes carries the derived status. -/
theorem c4_reserved_status :
    (∀ (m s : JSDate) (rowStatus : Option Str),
      jsLe s m = true → deriveStatus (some m) (some s) rowStatus = str "RESERVED")
    ∧ (∀ (m s : JSDate) (rowStatus : Option Str),
      jsLe s m = false →
        deriveStatus (some m) (some s) rowStatus = rowStatus.getD (str "PLANNED"))
    ∧ (∀ (m : JSDate) (rowStatus : Option Str),
      deriveStatus (some m) none rowStatus = str "RESERVED")
    ∧ (∀ (sd : Option JSDate) (rowStatus : Option Str),
      deriveStatus none sd rowStatus = rowStatus.getD (str "PLANNED"))
    ∧ (∀ (ctx : TaskImportCtx) (st : LoopState) (row : TaskRow) (T : Task),
      T ∈ (processTaskRow ctx st row).db.tasks → T ∈ st.db.tasks ∨
        T.status = deriveStatus (rowMoveNorm ctx.tzOffset row)
          (rowSchedNorm ctx.tzOffset row) (truthyGet row (str "status"))) := by
  refine ⟨?_, ?_, ?_, ?_, processTaskRow_status⟩
  · intro m s rowStatus h
    simp [deriveStatus, h]
  · intro m s rowStatus h
    simp [deriveStatus, h]
  · intro m rowStatus
    rfl
  · intro sd rowStatus
    rfl

/-- Witness for C4 at concrete dates: March 16 move-in on March 15 schedule
is RESERVED even though the sheet says DONE; the strict converse keeps the
sheet status. -/
theorem c4_reserved_status_witness :
    deriveStatus (some ⟨⟨2024, 3, 16⟩, 0⟩) (some ⟨⟨2024, 3, 15⟩, 0⟩)
        (some (str "DONE")) = str "RESERVED"
    ∧ deriveStatus (some ⟨⟨2024, 3, 14⟩, 0⟩) (some ⟨⟨2024, 3, 15⟩, 0⟩)
        (some (str "DONE")) = str "DONE"
    ∧ deriveStatus (some ⟨⟨2024, 3, 16⟩, 0⟩) none none = str "RESERVED"
    ∧ deriveStatus none (some ⟨⟨2024, 3, 15⟩, 0⟩) none = str "PLANNED" :=
  ⟨c4_reserved_status.1 ⟨⟨2024, 3, 16⟩, 0⟩ ⟨⟨2024, 3, 15⟩, 0⟩ (some (str "DONE"))
      (by decide),
   c4_reserved_status.2.1 ⟨⟨2024, 3, 14⟩, 0⟩ ⟨⟨2024, 3, 15⟩, 0⟩ (some (str "DONE"))
      (by decide),
   c4_reserved_status.2.2.1 ⟨⟨2024, 3, 16⟩, 0⟩ none,
   c4_reserved_status.2.2.2.1 (some ⟨⟨2024, 3, 15⟩, 0⟩) none⟩

/-- Claim C9: the row parsers only emit rows whose mandatory field (title
for tasks, address for properties) is present and non-empty, so no entity
is ever created or updated from a row lacking it: the import loops consume
exactly the parser output. -/
theorem c9_mandatory_field (rows : List RawRow) (mapping : List (Str × Str))
    (hdr : RawRow) (r : TaskRow) :
    (r ∈ parseTaskRows rows mapping hdr →
      ∃ v, truthyGet r (str "title") = some v)
    ∧ (r ∈ parsePropertyRows rows mapping hdr →
      ∃ v, truthyGet r (str "address") = some v) := by
  constructor
  · intro hmem
    unfold parseTaskRows at hmem
    split at hmem
    · simp at hmem
    · rcases List.mem_filterMap.mp hmem with ⟨a, _, hfa⟩
      simp only at hfa
      split at hfa
      · simp at hfa
      · rcases hv : truthyGet (mapRowFields (buildFieldToIndex mapping hdr) a)
            (str "title") with _ | v
        · rw [hv] at hfa
          simp at hfa
        · rw [hv] at hfa
          simp only [Option.some.injEq] at hfa
          exact ⟨v, by rw [← hfa]; exact hv⟩
  · intro hmem
    unfold parsePropertyRows at hmem
    split at hmem
    · simp at hmem
    · rcases List.mem_filterMap.mp hmem with ⟨a, _, hfa⟩
      simp only at hfa
      split at hfa
      · simp at hfa
      · rcases hv : truthyGet (mapRowFields (buildFieldToIndex mapping hdr) a)
            (str "address") with _ | v
        · rw [hv] at hfa
          simp at hfa
        · rw [hv] at hfa
          simp only [Option.some.injEq] at hfa
          exact ⟨v, by rw [← hfa]; exact hv⟩

/-- Witness for C9 on a concrete two-row sheet. -/
theorem c9_mandatory_field_witness :
    (∃ v, truthyGet [(str "title", str "A")] (str "title") = some v)
    ∧ (∃ v, truthyGet [(str "address", str "B")] (str "address") = some v) :=
  ⟨(c9_mandatory_field
      [[some (str "T")], [some (str "A")]] [(str "T", str "title")]
      [some (str "T")] [(str "title", str "A")]).1 (by decide),
   (c9_mandatory_field
      [[some (str "T")], [some (str "B")]] [(str "T", str "address")]
      [some (str "T")] [(str "address", str "B")]).2 (by decide)⟩

/-! ## Claim C2: duplicate detection without a unique value -/

/-- Extract the ok payload of an import call. -/
def okResult (e : Except Str (DB × SyncResult)) : Option SyncResult :=
  match e with
  | .ok p => some p.2
  | .error _ => none

/-- Extract the resulting database of an import call. -/
def okDB (e : Except Str (DB × SyncResult)) : Option DB :=
  match e with
  | .ok p => some p.1
  | .error _ => none

/-- Concrete state for the C2 counterexample: one existing task with the
same property, title and normalized scheduled date as the imported row. -/
def c2Db : DB :=
  { tasks := [⟨50, 7, 1, str "Clean Unit 4", none, str "PLANNED",
      some ⟨⟨2024, 3, 15⟩, 0⟩, none, none⟩],
    users := [], adminConfigs := [], notifLog := [],
    properties := [⟨1, 7, str "12 Main St", none, str "house", 1, 1, 1, none, true, none⟩],
    nextTaskId := 100, nextPropertyId := 10 }

def c2Rows : List RawRow :=
  [[some (str "Task Name"), some (str "Date")],
   [some (str "Clean Unit 4"), some (str "15/03/2024")]]

def c2Map : List (Str × Str) :=
  [(str "Task Name", str "title"), (str "Date", str "scheduledDate")]

/-- Counterexample to C2 as stated: the single imported row has no unique
value (no unique column is configured), and an existing task of the same
property matches its title and normalized scheduled date exactly, yet
the call creates a second task (created one, updated zero) instead of
updating the match. -/
theorem c2_counterexample :
    (c2Db.tasks.map (fun t => (t.propertyId, t.title, t.scheduledDate))
      = [(1, str "Clean Unit 4", some ⟨⟨2024, 3, 15⟩, 0⟩)])
    ∧ ((parseTaskRows c2Rows c2Map (c2Rows.headD [])).map
        (fun r => (truthyGet r (str "title"),
          (truthyGet r (str "scheduledDate")).map
            (fun v => (parseDate 0 v).map setHours0)))
      = [(some (str "Clean Unit 4"), some (some ⟨⟨2024, 3, 15⟩, 0⟩))])
    ∧ ((okResult (importTasksFromSheet 0 (fun _ _ => false) 1 c2Db 1 c2Rows c2Map
          none)).map (fun r => (r.created, r.updated, r.errors)) = some (1, 0, 0))
    ∧ ((okDB (importTasksFromSheet 0 (fun _ _ => false) 1 c2Db 1 c2Rows c2Map
          none)).map (fun d => d.tasks.length) = some 2) := by
  decide

/-- Claim C2 amended: the current task import performs no fallback search
at all.  For every row from which no unique value was extracted (unique
column unconfigured, or configured but empty for the row) whose dates
parse, the loop body creates a new task unconditionally, regardless of any
existing task of the same property with the same title and scheduled date;
it never updates and never records an error for such a row. -/
theorem c2_no_fallback (ctx : TaskImportCtx) (s : LoopState) (row : TaskRow)
    (sd md : Option JSDate)
    (hu : extractUniqueValue ctx.uniqueTaskField row = none)
    (hs : parsedSched ctx.tzOffset row = some sd)
    (hm : parsedMove ctx.tzOffset row = some md) :
    (processTaskRow ctx s row).createdIds = s.createdIds ++ [s.db.nextTaskId]
    ∧ (processTaskRow ctx s row).updatedIds = s.updatedIds
    ∧ (processTaskRow ctx s row).errs = s.errs
    ∧ (processTaskRow ctx s row).db.tasks =
        s.db.tasks ++ [applyData s.db.nextTaskId (cleanRowData ctx s.db row sd md)] := by
  rw [processTaskRow_clean ctx s row sd md hs hm, hu]
  refine ⟨rfl, rfl, rfl, ?_⟩
  simp only [findExistingTask]
  rw [dispatchNotifications_tasks]

/-- Witness for the amended C2: processing the concrete row of the
counterexample against the concrete state creates task 100 and leaves the
matching task 50 untouched. -/
theorem c2_no_fallback_witness :
    (processTaskRow ⟨0, 1, 7, str "12 Main St", none, fun _ _ => false⟩
        ⟨c2Db, [], [], []⟩
        [(str "title", str "Clean Unit 4"), (str "scheduledDate", str "15/03/2024")]
      ).createdIds = [100] := by
  have h := c2_no_fallback ⟨0, 1, 7, str "12 Main St", none, fun _ _ => false⟩
    ⟨c2Db, [], [], []⟩
    [(str "title", str "Clean Unit 4"), (str "scheduledDate", str "15/03/2024")]
    (some ⟨⟨2024, 3, 15⟩, 0⟩) none (by decide) (by decide) (by decide)
  exact h.1

/-! ## Claim C8: cross-tenant assignment rejection -/

/-- Claim C8: a row whose assignedUserEmail resolves to an existing user of
a different company yields no assignee, the row still becomes a create or
an update (no error is recorded), and every task the row writes has a null
assignee. -/
theorem c8_cross_tenant (ctx : TaskImportCtx) (s : LoopState) (row : TaskRow)
    (e : Str) (u : User) (sd md : Option JSDate)
    (he : truthyGet row (str "assignedUserEmail") = some e)
    (hu : s.db.users.find? (fun x => x.email == e) = some u)
    (hc : u.companyId ≠ ctx.companyId)
    (hs : parsedSched ctx.tzOffset row = some sd)
    (hm : parsedMove ctx.tzOffset row = some md) :
    resolveAssignee s.db ctx.companyId row = none
    ∧ (processTaskRow ctx s row).errs = s.errs
    ∧ (processTaskRow ctx s row).createdIds.length
        + (processTaskRow ctx s row).updatedIds.length
      = s.createdIds.length + s.updatedIds.length + 1
    ∧ (∀ T ∈ (processTaskRow ctx s row).db.tasks,
        T ∉ s.db.tasks → T.assignedUserId = none) := by
  have hres : resolveAssignee s.db ctx.companyId row = none := by
    simp only [resolveAssignee, he, hu]
    simp [hc]
  have hcounts := processTaskRow_counts ctx s row
  have herrs := processTaskRow_errs ctx s row
  have hre : rowErr ctx.tzOffset row = none := by
    unfold rowErr
    rw [hs, hm]
  rw [hre] at herrs
  simp only [List.append_nil] at herrs
  refine ⟨hres, herrs, ?_, ?_⟩
  · rw [herrs] at hcounts
    omega
  · intro T hT hnotin
    rw [processTaskRow_clean ctx s row sd md hs hm] at hT
    rcases hf : findExistingTask s.db ctx.propertyId
        (extractUniqueValue ctx.uniqueTaskField row) with _ | t0
    · rw [hf] at hT
      simp only [dispatchNotifications_tasks] at hT
      rcases List.mem_append.mp hT with h | h
      · exact absurd h hnotin
      · rw [List.mem_singleton.mp h]
        show (cleanRowData ctx s.db row sd md).assignedUserId = none
        unfold cleanRowData
        exact hres
    · rw [hf] at hT
      simp only at hT
      rcases List.mem_map.mp hT with ⟨t, ht, heq⟩
      by_cases hid : t.id = t0.id
      · rw [← heq, if_pos hid]
        show (cleanRowData ctx s.db row sd md).assignedUserId = none
        unfold cleanRowData
        exact hres
      · rw [← heq, if_neg hid] at hnotin ⊢
        exact absurd ht hnotin

/-- Concrete state for the C8 witness: a user of company 99 while the
property belongs to company 7. -/
def c8Db : DB :=
  { tasks := [], users := [⟨3, str "x@y.z", 99, str "CLEANER", true⟩],
    adminConfigs := [], notifLog := [],
    properties := [⟨1, 7, str "12 Main St", none, str "house", 1, 1, 1, none, true, none⟩],
    nextTaskId := 100, nextPropertyId := 10 }

/-- Witness for C8 at the concrete cross-tenant row. -/
theorem c8_cross_tenant_witness :
    resolveAssignee c8Db 7 [(str "title", str "t"), (str "assignedUserEmail", str "x@y.z")]
      = none
    ∧ (processTaskRow ⟨0, 1, 7, str "12 Main St", none, fun _ _ => false⟩
        ⟨c8Db, [], [], []⟩
        [(str "title", str "t"), (str "assignedUserEmail", str "x@y.z")]).errs = [] := by
  have h := c8_cross_tenant ⟨0, 1, 7, str "12 Main St", none, fun _ _ => false⟩
    ⟨c8Db, [], [], []⟩
    [(str "title", str "t"), (str "assignedUserEmail", str "x@y.z")]
    (str "x@y.z") ⟨3, str "x@y.z", 99, str "CLEANER", true⟩ none none
    (by decide) (by decide) (by decide) (by decide) (by decide)
  exact ⟨h.1, h.2.1⟩

/-! ## Claim C3: duplicate detection for properties -/

/-- Concrete state for the C3 counterexample: one property of company 7
whose notes contain the marker [UNIQUE:V], under a different address. -/
def c3Db : DB :=
  { tasks := [], users := [], adminConfigs := [], notifLog := [],
    properties := [⟨1, 7, str "A1", none, str "house", 1, 1, 1,
      some (str "[UNIQUE:V] x"), true, none⟩],
    nextTaskId := 1, nextPropertyId := 10 }

def c3Rows : List RawRow :=
  [[some (str "Address"), some (str "Type"), some (str "UID")],
   [some (str "A2"), some (str "House"), some (str "V")]]

def c3Map : List (Str × Str) :=
  [(str "Address", str "address"), (str "Type", str "propertyType"),
   (str "UID", str "uid")]

/-- Counterexample to C3 as stated: the imported property row extracts the
unique value V, and a property of the same company stores the marker
[UNIQUE:V] in its notes, yet the import does not find it (the search uses
address and postcode, never the marker) and creates a new property. -/
theorem c3_counterexample :
    (c3Db.properties.map
        (fun p => (p.companyId, p.notes.map (containsSub (markerOf (str "V")))))
      = [(7, some true)])
    ∧ ((parsePropertyRows c3Rows c3Map (c3Rows.headD [])).map
        (fun r =>
          propertyUniqueValue c3Rows
            ((c3Rows.headD []).findIdx? (fun c => c == some (str "UID")))
            (lookupA (buildFieldToIndex c3Map (c3Rows.headD [])) (str "address")) r)
      = [some (str "V")])
    ∧ ((okResult (importPropertiesFromSheet c3Db 7 c3Rows c3Map
          (some (str "UID")))).map (fun r => (r.created, r.updated, r.errors))
      = some (1, 0, 0))
    ∧ ((okDB (importPropertiesFromSheet c3Db 7 c3Rows c3Map
          (some (str "UID")))).map (fun d => d.properties.length) = some 2) := by
  decide

theorem processPropertyRow_uci (cid : Nat) (rows : List RawRow)
    (fti : List (Str × Nat)) (uci uci2 : Option Nat) :
    processPropertyRow cid rows uci fti = processPropertyRow cid rows uci2 fti := by
  funext s row
  unfold processPropertyRow
  simp only [findExistingProperty, ite_self]

/-- Claim C3 amended: the existing-property search ignores the extracted
unique value entirely: both branches run the identical query by owning
company, exact address and postcode, the stored notes are never searched
for a [UNIQUE:value] marker, and consequently the whole property import is
unaffected by which unique column is configured. -/
theorem c3_find_by_address_postcode :
    (∀ (db : DB) (cid : Nat) (addr : Str) (pc : Option Str) (uv : Option Str),
      findExistingProperty db cid addr pc uv =
        db.properties.find?
          (fun p => p.companyId == cid && p.address == addr && p.postcode == pc))
    ∧ (∀ (db : DB) (cid : Nat) (rows : List RawRow) (mapping : List (Str × Str))
        (uc uc2 : Option Str),
      importPropertiesFromSheet db cid rows mapping uc =
        importPropertiesFromSheet db cid rows mapping uc2) := by
  constructor
  · intro db cid addr pc uv
    unfold findExistingProperty
    exact ite_self _
  · intro db cid rows mapping uc uc2
    by_cases hrw : rows = []
    · simp [importPropertiesFromSheet, hrw]
    · simp only [importPropertiesFromSheet, if_neg hrw]
      rw [processPropertyRow_uci cid rows
        (buildFieldToIndex mapping (rows.headD []))
        (match uc with
         | some c => if c = [] then none
                     else (rows.headD []).findIdx? (fun x => x == some c)
         | none => none)
        (match uc2 with
         | some c => if c = [] then none
                     else (rows.headD []).findIdx? (fun x => x == some c)
         | none => none)]

/-! ## Claim C7: partial-failure isolation -/

/-- Claim C7: when exactly one parsed row has an unparseable date and every
other row parses cleanly, the import returns normally (no thrown error),
the error list is exactly that one row with its message, and all remaining
rows are created or updated. -/
theorem c7_partial_failure (o : Int) (f : Nat → Nat → Bool) (now : Int) (db : DB)
    (pid : Nat) (rows : List RawRow) (mapping : List (Str × Str)) (uc : Option Str)
    (prop : Property) (l1 l2 : List TaskRow) (rk : TaskRow) (m : Str)
    (hp : db.properties.find? (fun p => p.id == pid) = some prop)
    (hr : rows ≠ [])
    (hsplit : parseTaskRows rows mapping (rows.headD []) = l1 ++ rk :: l2)
    (h1 : ∀ r ∈ l1, rowErr o r = none)
    (hk : rowErr o rk = some m)
    (h2 : ∀ r ∈ l2, rowErr o r = none) :
    (okResult (importTasksFromSheet o f now db pid rows mapping uc)).map
        (fun r => (r.errorDetails, r.errors, r.created + r.updated))
      = some ([(rk, m)], 1, l1.length + l2.length) := by
  rw [importTasks_unfold o f now db pid rows mapping uc prop hp hr]
  rw [hsplit]
  simp only [okResult, Option.map_some', Option.some.injEq, Prod.mk.injEq]
  have herr := run_errs
    ⟨o, pid, prop.companyId, prop.address, computeUniqueTaskField mapping uc, f⟩
    (l1 ++ rk :: l2) ⟨db, [], [], []⟩
  have hcnt := run_counts
    ⟨o, pid, prop.companyId, prop.address, computeUniqueTaskField mapping uc, f⟩
    (l1 ++ rk :: l2) ⟨db, [], [], []⟩
  have hfm : (l1 ++ rk :: l2).filterMap
      (fun r => (rowErr o r).map (fun m0 => (r, m0))) = [(rk, m)] := by
    rw [List.filterMap_append]
    rw [List.filterMap_eq_nil_iff.mpr (fun a ha => by rw [h1 a ha]; rfl)]
    rw [List.filterMap_cons]
    rw [hk]
    rw [List.filterMap_eq_nil_iff.mpr (fun a ha => by rw [h2 a ha]; rfl)]
    rfl
  rw [hfm] at herr
  simp only [List.nil_append] at herr
  refine ⟨herr, by rw [herr]; rfl, ?_⟩
  rw [herr] at hcnt
  simp only [List.length_append, List.length_cons, List.length_singleton,
    List.length_nil] at hcnt
  omega

/-- Concrete state for the C7 witness. -/
def c7Db : DB :=
  { tasks := [], users := [], adminConfigs := [], notifLog := [],
    properties := [⟨1, 7, str "12 Main St", none, str "house", 1, 1, 1, none, true, none⟩],
    nextTaskId := 100, nextPropertyId := 10 }

def c7Rows : List RawRow :=
  [[some (str "Task Name"), some (str "Date"), some (str "Unique ID")],
   [some (str "a"), some (str "15/03/2024"), some (str "U-1")],
   [some (str "b"), some (str "99/99/2024"), some (str "U-2")],
   [some (str "c"), some (str "16/03/2024"), some (str "U-3")]]

def c7Map : List (Str × Str) :=
  [(str "Task Name", str "title"), (str "Date", str "scheduledDate"),
   (str "Unique ID", str "uid")]

/-- Witness for C7: in a three-row batch whose middle row has the
unparseable date 99/99/2024, the import returns one error entry carrying
that row, and the other two rows are created or updated. -/
theorem c7_partial_failure_witness :
    (okResult (importTasksFromSheet 0 (fun _ _ => false) 1 c7Db 1 c7Rows c7Map
        (some (str "Unique ID")))).map
        (fun r => (r.errorDetails, r.errors, r.created + r.updated))
      = some ([([(str "title", str "b"), (str "scheduledDate", str "99/99/2024"),
                 (str "uid", str "U-2")],
                str "Invalid scheduled date format: 99/99/2024. Expected YYYY-MM-DD or DD/MM/YYYY")],
              1, 2) := by
  have h := c7_partial_failure 0 (fun _ _ => false) 1 c7Db 1 c7Rows c7Map
    (some (str "Unique ID"))
    ⟨1, 7, str "12 Main St", none, str "house", 1, 1, 1, none, true, none⟩
    [[(str "title", str "a"), (str "scheduledDate", str "15/03/2024"),
      (str "uid", str "U-1")]]
    [[(str "title", str "c"), (str "scheduledDate", str "16/03/2024"),
      (str "uid", str "U-3")]]
    [(str "title", str "b"), (str "scheduledDate", str "99/99/2024"),
     (str "uid", str "U-2")]
    (str "Invalid scheduled date format: 99/99/2024. Expected YYYY-MM-DD or DD/MM/YYYY")
    (by decide) (by decide) (by decide) (by decide) (by decide) (by decide)
  exact h

/-! ## Claim C10: per-row accounting invariant -/

theorem DB.core_parts {a b : DB} (h : a.core = b.core) :
    a.tasks = b.tasks ∧ a.users = b.users ∧ a.properties = b.properties
      ∧ a.adminConfigs = b.adminConfigs ∧ a.nextTaskId = b.nextTaskId
      ∧ a.nextPropertyId = b.nextPropertyId := by
  unfold DB.core at h
  simp only [Prod.mk.injEq] at h
  exact ⟨h.1, h.2.1, h.2.2.1, h.2.2.2.1, h.2.2.2.2.1, h.2.2.2.2.2⟩

/-- The notification-failure oracle never influences which bucket a row
lands in nor any database component except the notification log. -/
theorem processTaskRow_oracle (o : Int) (pid cid : Nat) (addr : Str)
    (uf : Option Str) (f g : Nat → Nat → Bool) (s t : LoopState) (row : TaskRow)
    (hdb : s.db.core = t.db.core) (hcr : s.createdIds = t.createdIds)
    (hup : s.updatedIds = t.updatedIds) (her : s.errs = t.errs) :
    (processTaskRow ⟨o, pid, cid, addr, uf, f⟩ s row).db.core
        = (processTaskRow ⟨o, pid, cid, addr, uf, g⟩ t row).db.core
      ∧ (processTaskRow ⟨o, pid, cid, addr, uf, f⟩ s row).createdIds
        = (processTaskRow ⟨o, pid, cid, addr, uf, g⟩ t row).createdIds
      ∧ (processTaskRow ⟨o, pid, cid, addr, uf, f⟩ s row).updatedIds
        = (processTaskRow ⟨o, pid, cid, addr, uf, g⟩ t row).updatedIds
      ∧ (processTaskRow ⟨o, pid, cid, addr, uf, f⟩ s row).errs
        = (processTaskRow ⟨o, pid, cid, addr, uf, g⟩ t row).errs := by
  obtain ⟨htk, hus, hpr, hac, hni, hnp⟩ := DB.core_parts hdb
  rcases hs : parsedSched o row with _ | sd
  · rw [processTaskRow_schedErr _ s row hs, processTaskRow_schedErr _ t row hs]
    exact ⟨hdb, hcr, hup, by rw [her]⟩
  · rcases hm : parsedMove o row with _ | md
    · rw [processTaskRow_moveErr _ s row sd hs hm, processTaskRow_moveErr _ t row sd hs hm]
      exact ⟨hdb, hcr, hup, by rw [her]⟩
    · rw [processTaskRow_clean _ s row sd md hs hm, processTaskRow_clean _ t row sd md hs hm]
      have hres : resolveAssignee s.db cid row = resolveAssignee t.db cid row := by
        unfold resolveAssignee
        rw [hus]
      have hdata : cleanRowData ⟨o, pid, cid, addr, uf, f⟩ s.db row sd md
          = cleanRowData ⟨o, pid, cid, addr, uf, g⟩ t.db row sd md := by
        unfold cleanRowData
        rw [hres]
      have hfind : findExistingTask s.db pid (extractUniqueValue uf row)
          = findExistingTask t.db pid (extractUniqueValue uf row) := by
        unfold findExistingTask
        rcases extractUniqueValue uf row with _ | v
        · rfl
        · rw [htk]
      rw [← hfind]
      rcases findExistingTask s.db pid (extractUniqueValue uf row) with _ | t0
      · simp only
        refine ⟨?_, by rw [hcr, hni], hup, her⟩
        rw [dispatchNotifications_core, dispatchNotifications_core]
        unfold DB.core
        simp only [htk, hus, hpr, hac, hni, hnp, hdata]
      · simp only
        refine ⟨?_, hcr, by rw [hup], her⟩
        unfold DB.core
        simp only [htk, hus, hpr, hac, hni, hnp, hdata]

theorem run_oracle (o : Int) (pid cid : Nat) (addr : Str) (uf : Option Str)
    (f g : Nat → Nat → Bool) (rows : List TaskRow) :
    ∀ (s t : LoopState), s.db.core = t.db.core → s.createdIds = t.createdIds →
      s.updatedIds = t.updatedIds → s.errs = t.errs →
      (rows.foldl (processTaskRow ⟨o, pid, cid, addr, uf, f⟩) s).db.core
          = (rows.foldl (processTaskRow ⟨o, pid, cid, addr, uf, g⟩) t).db.core
        ∧ (rows.foldl (processTaskRow ⟨o, pid, cid, addr, uf, f⟩) s).createdIds
          = (rows.foldl (processTaskRow ⟨o, pid, cid, addr, uf, g⟩) t).createdIds
        ∧ (rows.foldl (processTaskRow ⟨o, pid, cid, addr, uf, f⟩) s).updatedIds
          = (rows.foldl (processTaskRow ⟨o, pid, cid, addr, uf, g⟩) t).updatedIds
        ∧ (rows.foldl (processTaskRow ⟨o, pid, cid, addr, uf, f⟩) s).errs
          = (rows.foldl (processTaskRow ⟨o, pid, cid, addr, uf, g⟩) t).errs := by
  induction rows with
  | nil => intro s t h1 h2 h3 h4; exact ⟨h1, h2, h3, h4⟩
  | cons r rows ih =>
    intro s t h1 h2 h3 h4
    simp only [List.foldl_cons]
    obtain ⟨g1, g2, g3, g4⟩ := processTaskRow_oracle o pid cid addr uf f g s t r h1 h2 h3 h4
    exact ih _ _ g1 g2 g3 g4

/-- Claim C10: every import that reaches the row loop classifies each
parsed row into exactly one bucket, so created plus updated plus errors
equals the number of parsed rows and the error-detail list has length
errors; and the returned result is identical whatever notification
dispatches fail. -/
theorem c10_accounting (o : Int) (f g : Nat → Nat → Bool) (now : Int) (db : DB)
    (pid : Nat) (rows : List RawRow) (mapping : List (Str × Str)) (uc : Option Str)
    (prop : Property)
    (hp : db.properties.find? (fun p => p.id == pid) = some prop)
    (hr : rows ≠ []) :
    ∃ res, okResult (importTasksFromSheet o f now db pid rows mapping uc) = some res
      ∧ res.created + res.updated + res.errors
          = (parseTaskRows rows mapping (rows.headD [])).length
      ∧ res.errorDetails.length = res.errors
      ∧ okResult (importTasksFromSheet o f now db pid rows mapping uc)
          = okResult (importTasksFromSheet o g now db pid rows mapping uc) := by
  rw [importTasks_unfold o f now db pid rows mapping uc prop hp hr,
    importTasks_unfold o g now db pid rows mapping uc prop hp hr]
  simp only [okResult]
  refine ⟨_, rfl, ?_, rfl, ?_⟩
  · have h := run_counts
      ⟨o, pid, prop.companyId, prop.address, computeUniqueTaskField mapping uc, f⟩
      (parseTaskRows rows mapping (rows.headD [])) ⟨db, [], [], []⟩
    simpa using h
  · obtain ⟨_, g2, g3, g4⟩ := run_oracle o pid prop.companyId prop.address
      (computeUniqueTaskField mapping uc) f g
      (parseTaskRows rows mapping (rows.headD []))
      ⟨db, [], [], []⟩ ⟨db, [], [], []⟩ rfl rfl rfl rfl
    rw [g2, g3, g4]

/-- Witness for C10 on the concrete two-row sheet, with an oracle failing
every dispatch against one failing none. -/
theorem c10_accounting_witness :
    ∃ res, okResult (importTasksFromSheet 0 (fun _ _ => true) 1 c2Db 1 c2Rows c2Map
          none) = some res
      ∧ res.created + res.updated + res.errors
          = (parseTaskRows c2Rows c2Map (c2Rows.headD [])).length
      ∧ res.errorDetails.length = res.errors
      ∧ okResult (importTasksFromSheet 0 (fun _ _ => true) 1 c2Db 1 c2Rows c2Map none)
          = okResult (importTasksFromSheet 0 (fun _ _ => false) 1 c2Db 1 c2Rows c2Map
              none) :=
  c10_accounting 0 (fun _ _ => true) (fun _ _ => false) 1 c2Db 1 c2Rows c2Map none
    ⟨1, 7, str "12 Main St", none, str "house", 1, 1, 1, none, true, none⟩
    (by decide) (by decide)

/-! ## Rendering dates as strings

These definitions follow the wording of the round-trip claim: a calendar
date rendered in the YYYY-MM-DD format, or in the DD/MM/YYYY format, both
zero-padded. -/

/-- Two-digit zero-padded decimal rendering. -/
def natDigits2 (n : Nat) : Str := [digCh (n / 10 % 10), digCh (n % 10)]

/-- Four-digit zero-padded decimal rendering. -/
def natDigits4 (n : Nat) : Str :=
  [digCh (n / 1000 % 10), digCh (n / 100 % 10), digCh (n / 10 % 10), digCh (n % 10)]

/-- Render a date in the YYYY-MM-DD format. -/
def renderISO (dt : CivilDate) : Str :=
  natDigits4 dt.year.toNat ++ ('-' :: natDigits2 dt.month.toNat)
    ++ ('-' :: natDigits2 dt.day.toNat)

/-- Render a date in the DD/MM/YYYY format. -/
def renderDDMM (dt : CivilDate) : Str :=
  natDigits2 dt.day.toNat ++ ('/' :: natDigits2 dt.month.toNat)
    ++ ('/' :: natDigits4 dt.year.toNat)

/-- The year, month and day of a date value after midnight normalization,
month one-indexed: the three components the round-trip claim compares. -/
def dayTriple (dt : JSDate) : Int × Int × Int :=
  (getFullYear (setHours0 dt), getMonth0 (setHours0 dt) + 1, getDate (setHours0 dt))

theorem digVal_digCh (k : Nat) (hk : k < 10) : digVal (digCh k) = k := by
  interval_cases k <;> rfl

theorem isDigitCh_digCh (k : Nat) (hk : k < 10) : isDigitCh (digCh k) = true := by
  interval_cases k <;> rfl

theorem isWs_digCh (k : Nat) (hk : k < 10) : isWs (digCh k) = false := by
  interval_cases k <;> rfl

theorem digVal_digCh_mod (k : Nat) : digVal (digCh (k % 10)) = k % 10 :=
  digVal_digCh (k % 10) (Nat.mod_lt k (by norm_num))

theorem isDigitCh_digCh_mod (k : Nat) : isDigitCh (digCh (k % 10)) = true :=
  isDigitCh_digCh (k % 10) (Nat.mod_lt k (by norm_num))

theorem isWs_digCh_mod (k : Nat) : isWs (digCh (k % 10)) = false :=
  isWs_digCh (k % 10) (Nat.mod_lt k (by norm_num))

theorem digit_ne_dash {ch : Char} (h : isDigitCh ch = true) : (ch == '-') = false := by
  cases hc : (ch == '-') with
  | false => rfl
  | true =>
    rw [show ch = '-' from beq_iff_eq.mp hc] at h
    exact absurd h (by decide)

theorem dropWhile_isWs_eq_self (s : Str) (h : ∀ c ∈ s, isWs c = false) :
    s.dropWhile isWs = s := by
  cases s with
  | nil => rfl
  | cons c t => simp [List.dropWhile_cons, h c (List.mem_cons_self c t)]

theorem trimStr_eq_self (s : Str) (h : ∀ c ∈ s, isWs c = false) : trimStr s = s := by
  unfold trimStr
  rw [dropWhile_isWs_eq_self s h]
  rw [dropWhile_isWs_eq_self s.reverse (fun c hc => h c (List.mem_reverse.mp hc))]
  exact List.reverse_reverse s

theorem isoSplit_digits (yn mn dn : Nat) (hy : yn ≤ 9999) (hm : mn ≤ 99)
    (hd : dn ≤ 99) :
    isoSplit (natDigits4 yn ++ ('-' :: natDigits2 mn) ++ ('-' :: natDigits2 dn)) =
      some ((yn : Int), (mn : Int), (dn : Int)) := by
  show isoSplit [digCh (yn / 1000 % 10), digCh (yn / 100 % 10), digCh (yn / 10 % 10),
      digCh (yn % 10), '-', digCh (mn / 10 % 10), digCh (mn % 10), '-',
      digCh (dn / 10 % 10), digCh (dn % 10)] = some ((yn : Int), (mn : Int), (dn : Int))
  simp only [isoSplit]
  rw [if_pos]
  · simp only [digVal_digCh_mod]
    have h1 : yn / 1000 % 10 * 1000 + yn / 100 % 10 * 100 + yn / 10 % 10 * 10
        + yn % 10 = yn := by omega
    have h2 : mn / 10 % 10 * 10 + mn % 10 = mn := by omega
    have h3 : dn / 10 % 10 * 10 + dn % 10 = dn := by omega
    rw [h1, h2, h3]
    rfl
  · simp [isDigitCh_digCh_mod]

theorem slashSplit_digits (dn mn yn : Nat) (hy : yn ≤ 9999) (hm : mn ≤ 99)
    (hd : dn ≤ 99) :
    slashSplit (natDigits2 dn ++ ('/' :: natDigits2 mn) ++ ('/' :: natDigits4 yn)) =
      some ((dn : Int), (mn : Int), (yn : Int)) := by
  show slashSplit [digCh (dn / 10 % 10), digCh (dn % 10), '/', digCh (mn / 10 % 10),
      digCh (mn % 10), '/', digCh (yn / 1000 % 10), digCh (yn / 100 % 10),
      digCh (yn / 10 % 10), digCh (yn % 10)]
    = some ((dn : Int), (mn : Int), (yn : Int))
  simp only [slashSplit]
  rw [if_pos]
  · simp only [digVal_digCh_mod]
    have h1 : dn / 10 % 10 * 10 + dn % 10 = dn := by omega
    have h2 : mn / 10 % 10 * 10 + mn % 10 = mn := by omega
    have h3 : yn / 1000 % 10 * 1000 + yn / 100 % 10 * 100 + yn / 10 % 10 * 10
        + yn % 10 = yn := by omega
    rw [h1, h2, h3]
    rfl
  · simp [isDigitCh_digCh_mod]

/-- A string the slash pattern accepts is never accepted by the ISO
pattern: the two shapes are disjoint. -/
theorem slashSplit_isoSplit (s : Str) (t : Int × Int × Int)
    (h : slashSplit s = some t) : isoSplit s = none := by
  rcases s with _ | ⟨c0, s⟩; · rfl
  rcases s with _ | ⟨c1, s⟩; · rfl
  rcases s with _ | ⟨c2, s⟩; · rfl
  rcases s with _ | ⟨c3, s⟩; · rfl
  rcases s with _ | ⟨c4, s⟩; · rfl
  rcases s with _ | ⟨c5, s⟩; · rfl
  rcases s with _ | ⟨c6, s⟩; · rfl
  rcases s with _ | ⟨c7, s⟩; · rfl
  rcases s with _ | ⟨c8, s⟩; · rfl
  rcases s with _ | ⟨c9, s⟩; · rfl
  rcases s with _ | ⟨c10, s⟩
  · simp only [slashSplit] at h
    split at h
    · rename_i hcond
      have h4 : isDigitCh c4 = true := by
        simp only [Bool.and_eq_true] at hcond
        tauto
      simp only [isoSplit]
      exact if_neg (by
        intro hiso
        have h45 : (c4 == '-') = true := by
          simp only [Bool.and_eq_true] at hiso
          tauto
        rw [digit_ne_dash h4] at h45
        exact Bool.false_ne_true h45)
    · exact absurd h (by simp)
  · rfl

/-! ## Validity of the rolled Date constructor -/

/-- Validity of a civil date, as a proposition on the record. -/
def ValidCD (c : CivilDate) : Prop := isValidDate c.year c.month c.day = true

theorem one_le_daysInMonth (y m : Int) : 1 ≤ daysInMonth y m := by
  unfold daysInMonth
  split_ifs <;> norm_num

theorem daysInMonth_le_31 (y m : Int) : daysInMonth y m ≤ 31 := by
  unfold daysInMonth
  split_ifs <;> norm_num

theorem validCD_iff {c : CivilDate} :
    ValidCD c ↔ 1 ≤ c.month ∧ c.month ≤ 12 ∧ 1 ≤ c.day
      ∧ c.day ≤ daysInMonth c.year c.month := by
  unfold ValidCD isValidDate
  simp [Bool.and_eq_true, decide_eq_true_eq, and_assoc]

theorem nextDay_valid {c : CivilDate} (h : ValidCD c) : ValidCD (nextDay c) := by
  obtain ⟨y, m, d⟩ := c
  obtain ⟨h1, h2, h3, h4⟩ := validCD_iff.mp h
  simp only at h1 h2 h3 h4
  simp only [nextDay]
  split_ifs with hd hm
  · exact validCD_iff.mpr ⟨by dsimp only; omega, by dsimp only; omega,
      by dsimp only; omega, by dsimp only; omega⟩
  · exact validCD_iff.mpr ⟨by dsimp only; omega, by dsimp only; omega,
      by dsimp only; omega, by dsimp only; exact one_le_daysInMonth _ _⟩
  · exact validCD_iff.mpr ⟨by dsimp only; omega, by dsimp only; omega,
      by dsimp only; omega, by dsimp only; exact one_le_daysInMonth _ _⟩

theorem prevDay_valid {c : CivilDate} (h : ValidCD c) : ValidCD (prevDay c) := by
  obtain ⟨y, m, d⟩ := c
  obtain ⟨h1, h2, h3, h4⟩ := validCD_iff.mp h
  simp only at h1 h2 h3 h4
  simp only [prevDay]
  split_ifs with hd hm
  · exact validCD_iff.mpr ⟨by dsimp only; omega, by dsimp only; omega,
      by dsimp only; omega, by dsimp only; omega⟩
  · exact validCD_iff.mpr ⟨by dsimp only; omega, by dsimp only; omega,
      by dsimp only; exact one_le_daysInMonth _ _, by dsimp only; exact le_refl _⟩
  · exact validCD_iff.mpr ⟨by dsimp only; omega, by dsimp only; omega,
      by dsimp only; omega, by dsimp only; norm_num [daysInMonth]⟩

theorem addDaysNat_valid {c : CivilDate} (h : ValidCD c) (n : Nat) :
    ValidCD (addDaysNat c n) := by
  induction n with
  | zero => exact h
  | succ k ih => exact nextDay_valid ih

theorem subDaysNat_valid {c : CivilDate} (h : ValidCD c) (n : Nat) :
    ValidCD (subDaysNat c n) := by
  induction n with
  | zero => exact h
  | succ k ih => exact prevDay_valid ih

/-- The rolled constructor always produces a valid civil date. -/
theorem jsMakeLocalDate_valid_result (y m0 d : Int) :
    ValidCD (jsMakeLocalDate y m0 d) := by
  have hbase : ValidCD ⟨(y * 12 + m0) / 12, (y * 12 + m0) % 12 + 1, 1⟩ := by
    refine validCD_iff.mpr ⟨?_, ?_, ?_, ?_⟩
    · show 1 ≤ (y * 12 + m0) % 12 + 1
      omega
    · show (y * 12 + m0) % 12 + 1 ≤ 12
      omega
    · show (1 : Int) ≤ 1
      norm_num
    · exact one_le_daysInMonth _ _
  unfold jsMakeLocalDate
  split_ifs
  · exact addDaysNat_valid hbase _
  · exact subDaysNat_valid hbase _

theorem addDaysNat_within (y m : Int) (n : Nat) :
    ∀ dd : Int, 1 ≤ dd → dd + n ≤ daysInMonth y m →
      addDaysNat ⟨y, m, dd⟩ n = ⟨y, m, dd + n⟩ := by
  induction n with
  | zero => intro dd _ _; simp [addDaysNat]
  | succ k ih =>
    intro dd h1 h2
    have hk : (k : Int) + 1 = ((k + 1 : Nat) : Int) := by push_cast; ring
    rw [addDaysNat, ih dd h1 (by omega), nextDay]
    rw [if_pos (by omega)]
    congr 1
    omega

/-- On a valid calendar date, new Date(year, month minus one, day) does not
roll over: it produces exactly that date. -/
theorem jsMakeLocalDate_valid (y m d : Int) (hv : isValidDate y m d = true) :
    jsMakeLocalDate y (m - 1) d = ⟨y, m, d⟩ := by
  have hv4 : 1 ≤ m ∧ m ≤ 12 ∧ 1 ≤ d ∧ d ≤ daysInMonth y m := by
    have := validCD_iff.mp (show ValidCD ⟨y, m, d⟩ from hv)
    simpa using this
  obtain ⟨h1, h2, h3, h4⟩ := hv4
  have htot : y * 12 + (m - 1) = (m - 1) + y * 12 := by ring
  have e1 : (y * 12 + (m - 1)) / 12 = y := by
    rw [htot, Int.add_mul_ediv_right _ _ (by norm_num : (12 : Int) ≠ 0)]
    rw [Int.ediv_eq_zero_of_lt (by omega) (by omega)]
    omega
  have e2 : (y * 12 + (m - 1)) % 12 = m - 1 := by
    rw [htot, Int.add_mul_emod_self]
    exact Int.emod_eq_of_lt (by omega) (by omega)
  unfold jsMakeLocalDate
  rw [if_pos h3, e1, e2]
  have hdm : daysInMonth y (m - 1 + 1) = daysInMonth y m := by
    congr 1
    omega
  have hn : ((d - 1).toNat : Int) = d - 1 := Int.toNat_of_nonneg (by omega)
  rw [addDaysNat_within y (m - 1 + 1) (d - 1).toNat 1 (by norm_num)
    (by rw [hdm]; omega)]
  congr 1 <;> omega

/-- The round-trip check of the D/M/YYYY branch passes exactly on valid
calendar dates. -/
theorem dm_check_iff (y q p : Int) :
    ((getDate (jsFromLocalParts y (q - 1) p) == p
        && getMonth0 (jsFromLocalParts y (q - 1) p) == q - 1
        && getFullYear (jsFromLocalParts y (q - 1) p) == y) = true)
      ↔ isValidDate y q p = true := by
  constructor
  · intro h
    simp only [Bool.and_eq_true, beq_iff_eq, getDate, getMonth0, getFullYear,
      jsFromLocalParts] at h
    obtain ⟨⟨hd, hm⟩, hy⟩ := h
    have hv := jsMakeLocalDate_valid_result y (q - 1) p
    unfold ValidCD at hv
    rw [hy, hd] at hv
    rw [show (jsMakeLocalDate y (q - 1) p).month = q from by omega] at hv
    exact hv
  · intro h
    rw [show jsFromLocalParts y (q - 1) p = ⟨⟨y, q, p⟩, 0⟩ from by
      unfold jsFromLocalParts
      rw [jsMakeLocalDate_valid y q p h]]
    simp [getDate, getMonth0, getFullYear]

/-! ## Claim C5: date parsing round-trip -/

/-- Counterexample to C5 as stated: in a timezone west of UTC (offset minus
300 minutes), the ISO rendering of March 15, 2024 parses to the UTC
midnight instant, and midnight normalization lands on the previous local
day: the round trip returns March 14, not March 15. -/
theorem c5_counterexample :
    str "2024-03-15" = renderISO ⟨2024, 3, 15⟩
    ∧ isValidDate 2024 3 15 = true
    ∧ (parseDate (-300) (str "2024-03-15")).map dayTriple = some (2024, 3, 14)
    ∧ (parseDate (-300) (str "2024-03-15")).map dayTriple ≠ some (2024, 3, 15) := by
  decide

/-- Claim C5 amended: the round trip through parseDate and midnight
normalization recovers every valid calendar date rendered in the DD/MM/YYYY
format in every fixed-offset timezone, and every date rendered in the
YYYY-MM-DD format whenever the local timezone offset is non-negative (at or
east of UTC); in west-of-UTC timezones the ISO path yields the preceding
day, as the counterexample shows. -/
theorem c5_roundtrip_amended (y m d o : Int)
    (hv : isValidDate y m d = true) (hy1 : 1000 ≤ y) (hy2 : y ≤ 9999)
    (ho1 : -1440 < o) (ho2 : o < 1440) :
    (parseDate o (renderDDMM ⟨y, m, d⟩)).map dayTriple = some (y, m, d)
    ∧ (0 ≤ o →
      (parseDate o (renderISO ⟨y, m, d⟩)).map dayTriple = some (y, m, d)) := by
  have hb : 1 ≤ m ∧ m ≤ 12 ∧ 1 ≤ d ∧ d ≤ daysInMonth y m := by
    have := validCD_iff.mp (show ValidCD ⟨y, m, d⟩ from hv)
    simpa using this
  obtain ⟨h1, h2, h3, h4⟩ := hb
  have hd31 : d ≤ 31 := le_trans h4 (daysInMonth_le_31 y m)
  have hyn : ((y.toNat : Int)) = y := Int.toNat_of_nonneg (by omega)
  have hmn : ((m.toNat : Int)) = m := Int.toNat_of_nonneg (by omega)
  have hdn : ((d.toNat : Int)) = d := Int.toNat_of_nonneg (by omega)
  have hyn9 : y.toNat ≤ 9999 := by omega
  have hmn9 : m.toNat ≤ 99 := by omega
  have hdn9 : d.toNat ≤ 99 := by omega
  constructor
  · have hchars : ∀ c ∈ renderDDMM ⟨y, m, d⟩, isWs c = false := by
      intro c hc
      unfold renderDDMM natDigits2 natDigits4 at hc
      dsimp only at hc
      simp only [List.append_assoc, List.cons_append, List.nil_append,
        List.mem_cons, List.not_mem_nil, or_false] at hc
      rcases hc with h | h | h | h | h | h | h | h | h | h <;> subst h <;>
        first
          | exact isWs_digCh_mod _
          | rfl
    have htrim : trimStr (renderDDMM ⟨y, m, d⟩) = renderDDMM ⟨y, m, d⟩ :=
      trimStr_eq_self _ hchars
    have hsl : slashSplit (renderDDMM ⟨y, m, d⟩) = some (d, m, y) := by
      have h := slashSplit_digits d.toNat m.toNat y.toNat hyn9 hmn9 hdn9
      rw [hyn, hmn, hdn] at h
      exact h
    have hiso : isoSplit (renderDDMM ⟨y, m, d⟩) = none := slashSplit_isoSplit _ _ hsl
    simp only [parseDate, htrim, hiso, hsl]
    have hcheck := (dm_check_iff y m d).mpr hv
    rw [if_pos hcheck]
    rw [show jsFromLocalParts y (m - 1) d = ⟨⟨y, m, d⟩, 0⟩ from by
      unfold jsFromLocalParts
      rw [jsMakeLocalDate_valid y m d hv]]
    simp only [Option.map_some', dayTriple, setHours0, getFullYear, getMonth0,
      getDate, Option.some.injEq, Prod.mk.injEq]
    refine ⟨trivial, by omega, trivial⟩
  · intro ho
    have hchars : ∀ c ∈ renderISO ⟨y, m, d⟩, isWs c = false := by
      intro c hc
      unfold renderISO natDigits2 natDigits4 at hc
      dsimp only at hc
      simp only [List.append_assoc, List.cons_append, List.nil_append,
        List.mem_cons, List.not_mem_nil, or_false] at hc
      rcases hc with h | h | h | h | h | h | h | h | h | h <;> subst h <;>
        first
          | exact isWs_digCh_mod _
          | rfl
    have htrim : trimStr (renderISO ⟨y, m, d⟩) = renderISO ⟨y, m, d⟩ :=
      trimStr_eq_self _ hchars
    have hiso : isoSplit (renderISO ⟨y, m, d⟩) = some (y, m, d) := by
      have h := isoSplit_digits y.toNat m.toNat d.toNat hyn9 hmn9 hdn9
      rw [hyn, hmn, hdn] at h
      exact h
    simp only [parseDate, htrim, hiso, hv, if_true]
    unfold jsFromUTCMidnight
    rw [if_pos ho]
    simp only [Option.map_some', dayTriple, setHours0, getFullYear, getMonth0,
      getDate, Option.some.injEq, Prod.mk.injEq]
    refine ⟨trivial, by omega, trivial⟩

/-- Witness for the amended C5 at March 15, 2024 with offset plus 60. -/
theorem c5_roundtrip_amended_witness :
    (parseDate 60 (renderDDMM ⟨2024, 3, 15⟩)).map dayTriple = some (2024, 3, 15)
    ∧ (parseDate 60 (renderISO ⟨2024, 3, 15⟩)).map dayTriple = some (2024, 3, 15) :=
  ⟨(c5_roundtrip_amended 2024 3 15 60 (by decide) (by decide) (by decide)
      (by decide) (by decide)).1,
   (c5_roundtrip_amended 2024 3 15 60 (by decide) (by decide) (by decide)
      (by decide) (by decide)).2 (by decide)⟩

/-! ## Claim C6: rejection of invalid calendar dates -/

/-- Counterexample to C6 as stated: the string 2/13/2024 is shaped like
DD/MM/YYYY but its components (day 2, month 13) do not form a real calendar
date; instead of returning null, parseDate falls through to the generic
Date constructor, which reads it as the US-format February 13, 2024. -/
theorem c6_counterexample :
    slashSplit (trimStr (str "2/13/2024")) = some (2, 13, 2024)
    ∧ isValidDate 2024 13 2 = false
    ∧ parseDate 0 (str "2/13/2024") = some ⟨⟨2024, 2, 13⟩, 0⟩
    ∧ parseDate 0 (str "2/13/2024") ≠ none := by
  decide

/-- Claim C6 amended: a string of the DD/MM/YYYY shape whose components do
not form a real calendar date is rejected if and only if its components are
also invalid under the month/day/year reading of the generic fallback
(otherwise the fallback accepts it as the US-format date); a string of the
YYYY-MM-DD shape whose components do not form a real calendar date is
always rejected. -/
theorem c6_invalid_dates_amended :
    (∀ (o : Int) (s : Str) (p q y : Int),
      slashSplit (trimStr s) = some (p, q, y) →
      isValidDate y q p = false →
      (parseDate o s = none ↔ isValidDate y p q = false))
    ∧ (∀ (o : Int) (s : Str) (y m d : Int),
      isoSplit (trimStr s) = some (y, m, d) →
      isValidDate y m d = false →
      parseDate o s = none) := by
  constructor
  · intro o s p q y hsl hbad
    have hiso : isoSplit (trimStr s) = none := slashSplit_isoSplit _ _ hsl
    have hcheck : (getDate (jsFromLocalParts y (q - 1) p) == p
        && getMonth0 (jsFromLocalParts y (q - 1) p) == q - 1
        && getFullYear (jsFromLocalParts y (q - 1) p) == y) = false := by
      cases hc : (getDate (jsFromLocalParts y (q - 1) p) == p
          && getMonth0 (jsFromLocalParts y (q - 1) p) == q - 1
          && getFullYear (jsFromLocalParts y (q - 1) p) == y) with
      | false => rfl
      | true =>
        rw [(dm_check_iff y q p).mp hc] at hbad
        exact absurd hbad (by simp)
    simp only [parseDate, hiso, hsl, hcheck, Bool.false_eq_true, if_false,
      jsDateFallback]
    cases hvpq : isValidDate y p q with
    | false => simp [hvpq]
    | true => simp [hvpq]
  · intro o s y m d hiso hbad
    simp only [parseDate, hiso, hbad, Bool.false_eq_true, if_false, jsDateFallback]

/-- Witness for the amended C6: 31/02/2024 is rejected (31 is no month
either), and 2024-13-01 is rejected. -/
theorem c6_invalid_dates_amended_witness :
    parseDate 0 (str "31/02/2024") = none
    ∧ parseDate 0 (str "2024-13-01") = none :=
  ⟨(c6_invalid_dates_amended.1 0 (str "31/02/2024") 31 2 2024 (by decide)
      (by decide)).mpr (by decide),
   c6_invalid_dates_amended.2 0 (str "2024-13-01") 2024 13 1 (by decide)
      (by decide)⟩

/-! ## Claim C1: idempotence with a unique key

The claim fails on the code when a sheet description itself contains a
marker of another row: an update rewrites the whole description and can
erase the marker a later sync relies on.  The amended statement assumes the
unique values and descriptions are free of square brackets, under which a
marker occurs in a persisted description exactly for the matching value. -/

/-- Freedom from the bracket characters the marker syntax uses. -/
def bracketFree (s : Str) : Prop := '[' ∉ s ∧ ']' ∉ s

/-- Bracket freedom of an optional description. -/
def descFree : Option Str → Prop
  | some d => bracketFree d
  | none => True

instance (s : Str) : Decidable (bracketFree s) :=
  inferInstanceAs (Decidable ('[' ∉ s ∧ ']' ∉ s))

instance : (d : Option Str) → Decidable (descFree d)
  | some d => inferInstanceAs (Decidable (bracketFree d))
  | none => inferInstanceAs (Decidable True)

/-- The description persisted for a row with unique value v. -/
def persistedDesc (v : Str) (dOpt : Option Str) : Str :=
  markerOf v ++ (match dOpt with
                 | some d => ' ' :: d
                 | none => [])

theorem buildDescription_some (v : Str) (dOpt : Option Str) :
    buildDescription (some v) dOpt = some (persistedDesc v dOpt) := by
  cases dOpt <;> simp [buildDescription, persistedDesc]

theorem containsSub_persistedDesc (v : Str) (dOpt : Option Str) :
    containsSub (markerOf v) (persistedDesc v dOpt) = true :=
  containsSub_append_self _ _

theorem eq_nil_of_bracket_head {a : Str} {r w : Str}
    (hw : '[' ∉ w) (h : a ++ '[' :: r = '[' :: w) : a = [] := by
  cases a with
  | nil => rfl
  | cons x xs =>
    injection h with h1 h2
    exfalso
    apply hw
    rw [← h2]
    exact List.mem_append_right xs (List.mem_cons_self _ _)

theorem eq_of_close_bracket {u : Str} :
    ∀ {v : Str} {b t : Str}, ']' ∉ u → ']' ∉ v →
      u ++ ']' :: b = v ++ ']' :: t → u = v := by
  induction u with
  | nil =>
    intro v b t _ hv h
    cases v with
    | nil => rfl
    | cons y ys =>
      injection h with h1 _
      exact absurd (List.mem_cons.mpr (Or.inl h1)) hv
  | cons x xs ih =>
    intro v b t hu hv h
    cases v with
    | nil =>
      injection h with h1 _
      exact absurd (List.mem_cons.mpr (Or.inl h1.symm)) hu
    | cons y ys =>
      injection h with h1 h2
      have := ih (fun hm => hu (List.mem_cons_of_mem x hm))
        (fun hm => hv (List.mem_cons_of_mem y hm)) h2
      rw [h1, this]

theorem bracket_not_mem_unique : '[' ∉ str "UNIQUE:" := by decide

theorem close_not_mem_unique : ']' ∉ str "UNIQUE:" := by decide

/-- Core of the marker-uniqueness argument: on bracket-free values, the
marker of u occurring anywhere in the marker of v followed by a
bracket-free tail forces u to equal v. -/
theorem marker_infix_core (u v tail : Str) (hu : bracketFree u)
    (hv : bracketFree v) (ht : '[' ∉ tail)
    (h : containsSub (markerOf u) (markerOf v ++ tail) = true) : u = v := by
  obtain ⟨a, b, hab⟩ := (containsSub_iff _ _).mp h
  have hshape : markerOf v ++ tail
      = '[' :: (str "UNIQUE:" ++ (v ++ (']' :: tail))) := by
    unfold markerOf
    simp [List.append_assoc]
  have hmk : markerOf u = '[' :: (str "UNIQUE:" ++ (u ++ [']'])) := by
    unfold markerOf
    simp [List.append_assoc]
  have hbr : '[' ∉ str "UNIQUE:" ++ (v ++ (']' :: tail)) := by
    intro hm
    rcases List.mem_append.mp hm with h0 | h0
    · exact bracket_not_mem_unique h0
    · rcases List.mem_append.mp h0 with h1 | h1
      · exact hv.1 h1
      · rcases List.mem_cons.mp h1 with h2 | h2
        · exact absurd h2 (by decide)
        · exact ht h2
  rw [hshape, hmk] at hab
  rw [show a ++ ('[' :: (str "UNIQUE:" ++ (u ++ [']']))) ++ b
      = a ++ '[' :: ((str "UNIQUE:" ++ (u ++ [']'])) ++ b) from by
    simp [List.append_assoc]] at hab
  have ha : a = [] := eq_nil_of_bracket_head hbr hab.symm
  subst ha
  simp only [List.nil_append] at hab
  injection hab with _ h2
  rw [show (str "UNIQUE:" ++ (u ++ [']'])) ++ b
      = str "UNIQUE:" ++ (u ++ (']' :: b)) from by simp [List.append_assoc]] at h2
  have h3 := List.append_cancel_left h2.symm
  exact eq_of_close_bracket hu.2 hv.2 h3

/-- Marker recognition is exact on bracket-free data: the marker of u
occurs in the persisted description for value v exactly when u equals v. -/
theorem marker_infix_persisted (u v : Str) (dOpt : Option Str)
    (hu : bracketFree u) (hv : bracketFree v) (hd : descFree dOpt) :
    (containsSub (markerOf u) (persistedDesc v dOpt) = true) ↔ u = v := by
  constructor
  · intro h
    cases dOpt with
    | none =>
      exact marker_infix_core u v [] hu hv (List.not_mem_nil _) h
    | some d =>
      refine marker_infix_core u v (' ' :: d) hu hv ?_ h
      intro hm
      rcases List.mem_cons.mp hm with h2 | h2
      · exact absurd h2 (by decide)
      · exact hd.1 h2
  · intro h
    rw [h]
    exact containsSub_persistedDesc v dOpt

/-- The per-row side condition of the amended idempotence claim: a unique
value is extracted and it, together with the sheet description, is free of
square brackets. -/
def rowC1Ok (uf : Option Str) (r : TaskRow) : Prop :=
  (extractUniqueValue uf r).isSome = true
  ∧ bracketFree ((extractUniqueValue uf r).getD [])
  ∧ descFree (truthyGet r (str "description"))

instance (uf : Option Str) (r : TaskRow) : Decidable (rowC1Ok uf r) :=
  inferInstanceAs (Decidable (_ ∧ _ ∧ _))

/-- A task of the property carrying the persisted description for value v,
with a bracket-free tail: the witness the second sync run rediscovers. -/
def goodTask (pid : Nat) (v : Str) (tasks : List Task) : Prop :=
  ∃ T ∈ tasks, T.propertyId = pid ∧ ∃ dOpt, descFree dOpt
    ∧ T.description = some (persistedDesc v dOpt)

theorem dispatchNotifications_nextTaskId (ctx : TaskImportCtx) (db : DB) (tid : Nat)
    (a : Option Nat) : (dispatchNotifications ctx db tid a).nextTaskId = db.nextTaskId :=
  congrArg (fun c => c.2.2.2.2.1) (dispatchNotifications_core ctx db tid a)

theorem dispatchNotifications_properties (ctx : TaskImportCtx) (db : DB) (tid : Nat)
    (a : Option Nat) : (dispatchNotifications ctx db tid a).properties = db.properties :=
  congrArg (fun c => c.2.2.1) (dispatchNotifications_core ctx db tid a)

theorem findExistingTask_some (db : DB) (pid : Nat) (v : Str) :
    findExistingTask db pid (some v) =
      db.tasks.find?
        (fun t => t.propertyId == pid &&
          (match t.description with
           | some d => containsSub (markerOf v) d
           | none => false)) := rfl

theorem findExistingTask_of_goodTask (db : DB) (pid : Nat) (v : Str)
    (hg : goodTask pid v db.tasks) :
    ∃ t0, findExistingTask db pid (some v) = some t0 := by
  obtain ⟨T, hT, hpid, dOpt, hfree, hdesc⟩ := hg
  rw [findExistingTask_some]
  rcases hfind : db.tasks.find?
      (fun t => t.propertyId == pid &&
        (match t.description with
         | some d => containsSub (markerOf v) d
         | none => false)) with _ | t0
  · exfalso
    rw [List.find?_eq_none] at hfind
    refine hfind T hT ?_
    simp only [hdesc, hpid, beq_self_eq_true, Bool.true_and]
    exact containsSub_persistedDesc v dOpt
  · exact ⟨t0, hfind⟩

theorem findExistingTask_pred (db : DB) (pid : Nat) (v : Str) (t0 : Task)
    (hf : findExistingTask db pid (some v) = some t0) :
    t0 ∈ db.tasks ∧
      (match t0.description with
       | some d => containsSub (markerOf v) d
       | none => false) = true := by
  rw [findExistingTask_some] at hf
  refine ⟨List.mem_of_find?_eq_some hf, ?_⟩
  have := List.find?_some hf
  simp only [Bool.and_eq_true] at this
  exact this.2

theorem apply_if_id (t0id : Nat) (data : TaskData) (t : Task) :
    (if t.id = t0id then applyData t.id data else t).id = t.id := by
  split_ifs <;> rfl

/-- A processed row preserves every good witness, provided the row itself
satisfies the bracket-free side condition. -/
theorem processTaskRow_goodTask (ctx : TaskImportCtx) (s : LoopState) (r : TaskRow)
    (v : Str) (hv : bracketFree v)
    (hrow : rowC1Ok ctx.uniqueTaskField r)
    (hwf : s.db.tasks.Pairwise (fun a b => a.id ≠ b.id))
    (hg : goodTask ctx.propertyId v s.db.tasks) :
    goodTask ctx.propertyId v (processTaskRow ctx s r).db.tasks := by
  rcases hs : parsedSched ctx.tzOffset r with _ | sd
  · rw [processTaskRow_schedErr ctx s r hs]
    exact hg
  rcases hm : parsedMove ctx.tzOffset r with _ | md
  · rw [processTaskRow_moveErr ctx s r sd hs hm]
    exact hg
  rw [processTaskRow_clean ctx s r sd md hs hm]
  obtain ⟨hsome, hvr0, hdr⟩ := hrow
  rcases hu : extractUniqueValue ctx.uniqueTaskField r with _ | vr
  · rw [hu] at hsome
    exact absurd hsome (by simp)
  have hvr : bracketFree vr := by
    rw [hu] at hvr0
    exact hvr0
  rcases hf : findExistingTask s.db ctx.propertyId (some vr) with _ | t0
  · simp only [hu, hf]
    obtain ⟨T, hT, hTp, dOpt, hfree, hdesc⟩ := hg
    refine ⟨T, ?_, hTp, dOpt, hfree, hdesc⟩
    rw [dispatchNotifications_tasks]
    exact List.mem_append_left _ hT
  · simp only [hu, hf]
    obtain ⟨T, hT, hTp, dOpt, hfree, hdesc⟩ := hg
    obtain ⟨ht0mem, ht0pred⟩ := findExistingTask_pred s.db ctx.propertyId vr t0 hf
    by_cases hid : T.id = t0.id
    · have hsymm : Symmetric (fun a b : Task => a.id ≠ b.id) := fun a b h => h.symm
      have hTt0 : T = t0 := by
        by_contra hne
        exact (List.Pairwise.forall hsymm hwf hT ht0mem hne) hid
      rw [← hTt0] at ht0pred ⊢
      simp only [hdesc] at ht0pred
      have hvrv : vr = v := (marker_infix_persisted vr v dOpt hvr hv hfree).mp ht0pred
      refine ⟨applyData T.id (cleanRowData ctx s.db r sd md),
        List.mem_map.mpr ⟨T, hT, by simp⟩, rfl,
        truthyGet r (str "description"), hdr, ?_⟩
      show (cleanRowData ctx s.db r sd md).description
        = some (persistedDesc v (truthyGet r (str "description")))
      unfold cleanRowData
      dsimp only
      rw [hu, buildDescription_some, hvrv]
    · exact ⟨T, List.mem_map.mpr ⟨T, hT, by simp [hid]⟩, hTp, dOpt, hfree, hdesc⟩

/-- A cleanly processed row with unique value vr leaves behind a good
witness for vr. -/
theorem processTaskRow_establishes (ctx : TaskImportCtx) (s : LoopState)
    (r : TaskRow) (vr : Str) (sd md : Option JSDate)
    (hu : extractUniqueValue ctx.uniqueTaskField r = some vr)
    (hdr : descFree (truthyGet r (str "description")))
    (hs : parsedSched ctx.tzOffset r = some sd)
    (hm : parsedMove ctx.tzOffset r = some md) :
    goodTask ctx.propertyId vr (processTaskRow ctx s r).db.tasks := by
  rw [processTaskRow_clean ctx s r sd md hs hm]
  have hdescr : (cleanRowData ctx s.db r sd md).description
      = some (persistedDesc vr (truthyGet r (str "description"))) := by
    unfold cleanRowData
    dsimp only
    rw [hu, buildDescription_some]
  rcases hf : findExistingTask s.db ctx.propertyId
      (extractUniqueValue ctx.uniqueTaskField r) with _ | t0
  · simp only [hf]
    refine ⟨applyData s.db.nextTaskId (cleanRowData ctx s.db r sd md), ?_, rfl,
      truthyGet r (str "description"), hdr, hdescr⟩
    rw [dispatchNotifications_tasks]
    exact List.mem_append_right _ (List.mem_singleton.mpr rfl)
  · simp only [hf]
    rw [hu] at hf
    obtain ⟨ht0mem, _⟩ := findExistingTask_pred s.db ctx.propertyId vr t0 hf
    exact ⟨applyData t0.id (cleanRowData ctx s.db r sd md),
      List.mem_map.mpr ⟨t0, ht0mem, by simp⟩, rfl,
      truthyGet r (str "description"), hdr, hdescr⟩

/-- The loop body preserves well-formedness: task ids stay pairwise
distinct and below the id counter. -/
theorem processTaskRow_wf (ctx : TaskImportCtx) (s : LoopState) (r : TaskRow)
    (h1 : s.db.tasks.Pairwise (fun a b => a.id ≠ b.id))
    (h2 : ∀ T ∈ s.db.tasks, T.id < s.db.nextTaskId) :
    (processTaskRow ctx s r).db.tasks.Pairwise (fun a b => a.id ≠ b.id)
      ∧ ∀ T ∈ (processTaskRow ctx s r).db.tasks,
          T.id < (processTaskRow ctx s r).db.nextTaskId := by
  rcases hs : parsedSched ctx.tzOffset r with _ | sd
  · rw [processTaskRow_schedErr ctx s r hs]
    exact ⟨h1, h2⟩
  rcases hm : parsedMove ctx.tzOffset r with _ | md
  · rw [processTaskRow_moveErr ctx s r sd hs hm]
    exact ⟨h1, h2⟩
  rw [processTaskRow_clean ctx s r sd md hs hm]
  rcases hf : findExistingTask s.db ctx.propertyId
      (extractUniqueValue ctx.uniqueTaskField r) with _ | t0
  · simp only [hf]
    rw [dispatchNotifications_tasks, dispatchNotifications_nextTaskId]
    constructor
    · rw [List.pairwise_append]
      refine ⟨h1, List.pairwise_singleton _ _, ?_⟩
      intro a ha b hb
      rw [List.mem_singleton.mp hb]
      have := h2 a ha
      show a.id ≠ s.db.nextTaskId
      omega
    · intro T hT
      rcases List.mem_append.mp hT with h | h
      · have := h2 T h
        show T.id < s.db.nextTaskId + 1
        omega
      · rw [List.mem_singleton.mp h]
        show s.db.nextTaskId < s.db.nextTaskId + 1
        omega
  · simp only [hf]
    constructor
    · rw [List.pairwise_map]
      refine h1.imp ?_
      intro a b hab
      rw [apply_if_id, apply_if_id]
      exact hab
    · intro T hT
      rcases List.mem_map.mp hT with ⟨t, ht, heq⟩
      rw [← heq, apply_if_id]
      exact h2 t ht

theorem rowErr_none (o : Int) (r : TaskRow) (h : rowErr o r = none) :
    ∃ sd md, parsedSched o r = some sd ∧ parsedMove o r = some md := by
  unfold rowErr at h
  rcases hps : parsedSched o r with _ | sd
  · simp only [hps] at h
    exact absurd h (by simp)
  · simp only [hps] at h
    rcases hpm : parsedMove o r with _ | md
    · simp only [hpm] at h
      exact absurd h (by simp)
    · exact ⟨sd, md, rfl, rfl⟩

theorem processTaskRow_err_state (ctx : TaskImportCtx) (s : LoopState) (r : TaskRow)
    (m : Str) (herr : rowErr ctx.tzOffset r = some m) :
    processTaskRow ctx s r = { s with errs := s.errs ++ [(r, m)] } := by
  unfold rowErr at herr
  rcases hps : parsedSched ctx.tzOffset r with _ | sd
  · simp only [hps, Option.some.injEq] at herr
    rw [processTaskRow_schedErr ctx s r hps, herr]
  · simp only [hps] at herr
    rcases hpm : parsedMove ctx.tzOffset r with _ | md
    · simp only [hpm, Option.some.injEq] at herr
      rw [processTaskRow_moveErr ctx s r sd hps hpm, herr]
    · simp only [hpm] at herr
      exact absurd herr (by simp)

theorem processTaskRow_db_properties (ctx : TaskImportCtx) (s : LoopState)
    (r : TaskRow) :
    (processTaskRow ctx s r).db.properties = s.db.properties := by
  rcases hs : parsedSched ctx.tzOffset r with _ | sd
  · rw [processTaskRow_schedErr ctx s r hs]
  · rcases hm : parsedMove ctx.tzOffset r with _ | md
    · rw [processTaskRow_moveErr ctx s r sd hs hm]
    · rw [processTaskRow_clean ctx s r sd md hs hm]
      rcases findExistingTask s.db ctx.propertyId
          (extractUniqueValue ctx.uniqueTaskField r) with _ | t0
      · simp only
        rw [dispatchNotifications_properties]
      · simp only

theorem run_db_properties (ctx : TaskImportCtx) :
    ∀ (rows : List TaskRow) (s : LoopState),
      (rows.foldl (processTaskRow ctx) s).db.properties = s.db.properties := by
  intro rows
  induction rows with
  | nil => intro s; rfl
  | cons r rows ih =>
    intro s
    simp only [List.foldl_cons]
    rw [ih, processTaskRow_db_properties]

theorem run_wf (ctx : TaskImportCtx) :
    ∀ (rows : List TaskRow) (s : LoopState),
      s.db.tasks.Pairwise (fun a b => a.id ≠ b.id) →
      (∀ T ∈ s.db.tasks, T.id < s.db.nextTaskId) →
      (rows.foldl (processTaskRow ctx) s).db.tasks.Pairwise (fun a b => a.id ≠ b.id)
        ∧ ∀ T ∈ (rows.foldl (processTaskRow ctx) s).db.tasks,
            T.id < (rows.foldl (processTaskRow ctx) s).db.nextTaskId := by
  intro rows
  induction rows with
  | nil => intro s h1 h2; exact ⟨h1, h2⟩
  | cons r rows ih =>
    intro s h1 h2
    simp only [List.foldl_cons]
    obtain ⟨g1, g2⟩ := processTaskRow_wf ctx s r h1 h2
    exact ih _ g1 g2

theorem run_goodTask (ctx : TaskImportCtx) (v : Str) (hv : bracketFree v) :
    ∀ (rows : List TaskRow) (s : LoopState),
      (∀ r ∈ rows, rowC1Ok ctx.uniqueTaskField r) →
      s.db.tasks.Pairwise (fun a b => a.id ≠ b.id) →
      (∀ T ∈ s.db.tasks, T.id < s.db.nextTaskId) →
      goodTask ctx.propertyId v s.db.tasks →
      goodTask ctx.propertyId v (rows.foldl (processTaskRow ctx) s).db.tasks := by
  intro rows
  induction rows with
  | nil => intro s _ _ _ hg; exact hg
  | cons r rows ih =>
    intro s hrows h1 h2 hg
    simp only [List.foldl_cons]
    obtain ⟨g1, g2⟩ := processTaskRow_wf ctx s r h1 h2
    exact ih _ (fun x hx => hrows x (List.mem_cons_of_mem r hx)) g1 g2
      (processTaskRow_goodTask ctx s r v hv (hrows r (List.mem_cons_self r rows)) h1 hg)

theorem run_establishes (ctx : TaskImportCtx) :
    ∀ (rows : List TaskRow) (s : LoopState),
      (∀ r ∈ rows, rowC1Ok ctx.uniqueTaskField r) →
      s.db.tasks.Pairwise (fun a b => a.id ≠ b.id) →
      (∀ T ∈ s.db.tasks, T.id < s.db.nextTaskId) →
      ∀ r ∈ rows, rowErr ctx.tzOffset r = none →
        ∀ vr, extractUniqueValue ctx.uniqueTaskField r = some vr →
          goodTask ctx.propertyId vr (rows.foldl (processTaskRow ctx) s).db.tasks := by
  intro rows
  induction rows with
  | nil => intro s _ _ _ r hr; exact absurd hr (List.not_mem_nil r)
  | cons r0 rows ih =>
    intro s hrows h1 h2 r hr herr vr hvr
    simp only [List.foldl_cons]
    obtain ⟨g1, g2⟩ := processTaskRow_wf ctx s r0 h1 h2
    rcases List.mem_cons.mp hr with rfl | hmem
    · obtain ⟨sd, md, hsd, hmd⟩ := rowErr_none _ _ herr
      have hdr : descFree (truthyGet r (str "description")) :=
        (hrows r (List.mem_cons_self r rows)).2.2
      have hvrb : bracketFree vr := by
        have h0 := (hrows r (List.mem_cons_self r rows)).2.1
        rw [hvr] at h0
        exact h0
      exact run_goodTask ctx vr hvrb rows _
        (fun x hx => hrows x (List.mem_cons_of_mem r hx)) g1 g2
        (processTaskRow_establishes ctx s r vr sd md hvr hdr hsd hmd)
    · exact ih _ (fun x hx => hrows x (List.mem_cons_of_mem r0 hx)) g1 g2
        r hmem herr vr hvr

theorem run_no_creates (ctx : TaskImportCtx) :
    ∀ (rows : List TaskRow) (s : LoopState),
      (∀ r ∈ rows, rowC1Ok ctx.uniqueTaskField r) →
      s.db.tasks.Pairwise (fun a b => a.id ≠ b.id) →
      (∀ T ∈ s.db.tasks, T.id < s.db.nextTaskId) →
      (∀ r ∈ rows, rowErr ctx.tzOffset r = none →
        ∀ vr, extractUniqueValue ctx.uniqueTaskField r = some vr →
          goodTask ctx.propertyId vr s.db.tasks) →
      (rows.foldl (processTaskRow ctx) s).createdIds = s.createdIds := by
  intro rows
  induction rows with
  | nil => intro s _ _ _ _; rfl
  | cons r0 rows ih =>
    intro s hrows h1 h2 hinv
    simp only [List.foldl_cons]
    rcases herr : rowErr ctx.tzOffset r0 with _ | m
    · obtain ⟨sd, md, hsd, hmd⟩ := rowErr_none _ _ herr
      obtain ⟨hsome, hvr0, hdr⟩ := hrows r0 (List.mem_cons_self r0 rows)
      rcases hu : extractUniqueValue ctx.uniqueTaskField r0 with _ | vr
      · rw [hu] at hsome
        exact absurd hsome (by simp)
      have hg := hinv r0 (List.mem_cons_self r0 rows) herr vr hu
      obtain ⟨t0, hf⟩ := findExistingTask_of_goodTask s.db ctx.propertyId vr hg
      have hstep : (processTaskRow ctx s r0).createdIds = s.createdIds := by
        rw [processTaskRow_clean ctx s r0 sd md hsd hmd]
        simp only [hu, hf]
      obtain ⟨g1, g2⟩ := processTaskRow_wf ctx s r0 h1 h2
      have hinv2 : ∀ r ∈ rows, rowErr ctx.tzOffset r = none →
          ∀ vr2, extractUniqueValue ctx.uniqueTaskField r = some vr2 →
            goodTask ctx.propertyId vr2 (processTaskRow ctx s r0).db.tasks := by
        intro r hrm hre vr2 hvr2
        have hvr2b : bracketFree vr2 := by
          have h0 := (hrows r (List.mem_cons_of_mem r0 hrm)).2.1
          rw [hvr2] at h0
          exact h0
        exact processTaskRow_goodTask ctx s r0 vr2 hvr2b
          (hrows r0 (List.mem_cons_self r0 rows)) h1
          (hinv r (List.mem_cons_of_mem r0 hrm) hre vr2 hvr2)
      rw [ih _ (fun x hx => hrows x (List.mem_cons_of_mem r0 hx)) g1 g2 hinv2, hstep]
    · rw [processTaskRow_err_state ctx s r0 m herr]
      exact ih { s with errs := s.errs ++ [(r0, m)] }
        (fun x hx => hrows x (List.mem_cons_of_mem r0 hx)) h1 h2
        (fun r hrm hre vr2 hvr2 => hinv r (List.mem_cons_of_mem r0 hrm) hre vr2 hvr2)

theorem find?_stamp (pid : Nat) (now : Int) :
    ∀ (props : List Property) (prop : Property),
      props.find? (fun p => p.id == pid) = some prop →
      (props.map (fun p =>
          if p.id = pid then { p with sheetLastSyncedAt := some now } else p)).find?
          (fun p => p.id == pid)
        = some ({ prop with sheetLastSyncedAt := some now }) := by
  intro props
  induction props with
  | nil => intro prop h; exact absurd h (by simp)
  | cons q props ih =>
    intro prop h
    cases hq : (q.id == pid) with
    | false =>
      rw [List.find?_cons_of_neg _ (by simp [hq])] at h
      simp only [List.map_cons]
      rw [if_neg (by simpa using hq)]
      rw [List.find?_cons_of_neg _ (by simp [hq])]
      exact ih prop h
    | true =>
      rw [List.find?_cons_of_pos _ (by simp [hq])] at h
      have hqp : q = prop := by
        injection h
      subst hqp
      simp only [List.map_cons]
      rw [if_pos (by simpa using hq)]
      rw [List.find?_cons_of_pos _ (by simpa using hq)]

/-- Claim C1 amended: importing the same sheet twice, where every row
carries a non-empty unique value and the unique values and descriptions are
free of square brackets (so that no sheet text can masquerade as another
row marker), produces zero creates on the second run: every row of the
second run either repeats its deterministic date error or resolves through
its [UNIQUE:value] marker to an update of an existing task. -/
theorem c1_idempotence_bracketfree (o : Int) (f g : Nat → Nat → Bool)
    (now now2 : Int) (db : DB) (pid : Nat) (rows : List RawRow)
    (mapping : List (Str × Str)) (uc : Option Str) (prop : Property)
    (hp : db.properties.find? (fun p => p.id == pid) = some prop)
    (hr : rows ≠ [])
    (hwf1 : db.tasks.Pairwise (fun a b => a.id ≠ b.id))
    (hwf2 : ∀ T ∈ db.tasks, T.id < db.nextTaskId)
    (hall : ∀ r ∈ parseTaskRows rows mapping (rows.headD []),
      rowC1Ok (computeUniqueTaskField mapping uc) r) :
    ∃ db1 res1, importTasksFromSheet o f now db pid rows mapping uc = .ok (db1, res1)
      ∧ ∃ db2 res2,
          importTasksFromSheet o g now2 db1 pid rows mapping uc = .ok (db2, res2)
          ∧ res2.created = 0
          ∧ res2.created + res2.updated + res2.errors
              = (parseTaskRows rows mapping (rows.headD [])).length := by
  rw [importTasks_unfold o f now db pid rows mapping uc prop hp hr]
  simp only
  set trs := parseTaskRows rows mapping (rows.headD []) with htrs
  set ctx1 : TaskImportCtx :=
    ⟨o, pid, prop.companyId, prop.address, computeUniqueTaskField mapping uc, f⟩
    with hctx1
  set final1 := trs.foldl (processTaskRow ctx1) ⟨db, [], [], []⟩ with hfinal1
  set db1 := { final1.db with
    properties := final1.db.properties.map
      (fun p : Property =>
        if p.id = pid then { p with sheetLastSyncedAt := some now } else p) }
    with hdb1
  refine ⟨_, _, rfl, ?_⟩
  have hwfrun := run_wf ctx1 trs ⟨db, [], [], []⟩ hwf1 hwf2
  have hdb1props : db1.properties = db.properties.map
      (fun p : Property =>
        if p.id = pid then { p with sheetLastSyncedAt := some now } else p) := by
    rw [hdb1]
    show final1.db.properties.map _ = _
    rw [hfinal1, run_db_properties]
  have hp2 : db1.properties.find? (fun p => p.id == pid)
      = some ({ prop with sheetLastSyncedAt := some now }) := by
    rw [hdb1props]
    exact find?_stamp pid now db.properties prop hp
  rw [importTasks_unfold o g now2 db1 pid rows mapping uc
    ({ prop with sheetLastSyncedAt := some now }) hp2 hr]
  simp only
  rw [← htrs]
  have h1 : db1.tasks.Pairwise (fun a b => a.id ≠ b.id) := hwfrun.1
  have h2 : ∀ T ∈ db1.tasks, T.id < db1.nextTaskId := hwfrun.2
  have hinv : ∀ r ∈ trs, rowErr o r = none →
      ∀ vr, extractUniqueValue (computeUniqueTaskField mapping uc) r = some vr →
        goodTask pid vr db1.tasks := by
    intro r hrm hre vr hvr
    exact run_establishes ctx1 trs ⟨db, [], [], []⟩ hall hwf1 hwf2 r hrm hre vr hvr
  have hnc := run_no_creates
    ⟨o, pid, ({ prop with sheetLastSyncedAt := some now }).companyId,
      ({ prop with sheetLastSyncedAt := some now }).address,
      computeUniqueTaskField mapping uc, g⟩
    trs ⟨db1, [], [], []⟩ hall h1 h2 hinv
  have hcnt := run_counts
    ⟨o, pid, ({ prop with sheetLastSyncedAt := some now }).companyId,
      ({ prop with sheetLastSyncedAt := some now }).address,
      computeUniqueTaskField mapping uc, g⟩
    trs ⟨db1, [], [], []⟩
  refine ⟨_, _, rfl, ?_, ?_⟩
  · rw [hnc]
    rfl
  · simpa using hcnt

/-- Concrete state for the C1 counterexample and witness. -/
def c1Db : DB :=
  { tasks := [], users := [], adminConfigs := [], notifLog := [],
    properties := [⟨1, 7, str "12 Main St", none, str "house", 1, 1, 1, none, true, none⟩],
    nextTaskId := 100, nextPropertyId := 10 }

/-- Counterexample sheet: the first row's description embeds the marker of
the second row's unique value. -/
def c1Rows : List RawRow :=
  [[some (str "Title"), some (str "UID"), some (str "Desc")],
   [some (str "t1"), some (str "X"), some (str "[UNIQUE:Y]")],
   [some (str "t2"), some (str "Y")]]

def c1Map : List (Str × Str) :=
  [(str "Title", str "title"), (str "UID", str "uid"), (str "Desc", str "description")]

def c1Run1 : Except Str (DB × SyncResult) :=
  importTasksFromSheet 0 (fun _ _ => false) 1 c1Db 1 c1Rows c1Map (some (str "UID"))

def c1Run2 : Except Str (DB × SyncResult) :=
  importTasksFromSheet 0 (fun _ _ => false) 2 ((okDB c1Run1).getD c1Db) 1 c1Rows
    c1Map (some (str "UID"))

/-- Counterexample to C1 as stated: every row of the sheet carries a
non-empty unique value, yet the second run of the identical import creates
a task.  The first run creates task t1 with description containing both
markers, then row two finds t1 through the embedded marker of Y and
overwrites its description, erasing the marker of X; the second run can no
longer find X and creates a duplicate. -/
theorem c1_counterexample :
    (∀ r ∈ parseTaskRows c1Rows c1Map (c1Rows.headD []),
      (extractUniqueValue (computeUniqueTaskField c1Map (some (str "UID"))) r).isSome
        = true)
    ∧ (okResult c1Run1).map (fun r => (r.created, r.updated, r.errors))
        = some (1, 1, 0)
    ∧ (okResult c1Run2).map (fun r => (r.created, r.updated, r.errors))
        = some (1, 1, 0) := by
  decide

/-- Witness sheet for the amended C1: bracket-free unique values and no
descriptions. -/
def c1wRows : List RawRow :=
  [[some (str "Task Name"), some (str "Date"), some (str "Unique ID")],
   [some (str "Clean Unit 4"), some (str "15/03/2024"), some (str "U-100")],
   [some (str "Clean Unit 5"), some (str "2024-03-16"), some (str "U-101")]]

def c1wMap : List (Str × Str) :=
  [(str "Task Name", str "title"), (str "Date", str "scheduledDate"),
   (str "Unique ID", str "uid")]

/-- Witness for the amended C1 on the concrete two-row sheet. -/
theorem c1_idempotence_bracketfree_witness :
    ∃ db1 res1, importTasksFromSheet 0 (fun _ _ => false) 1 c1Db 1 c1wRows c1wMap
        (some (str "Unique ID")) = .ok (db1, res1)
      ∧ ∃ db2 res2,
          importTasksFromSheet 0 (fun _ _ => false) 2 db1 1 c1wRows c1wMap
            (some (str "Unique ID")) = .ok (db2, res2)
          ∧ res2.created = 0
          ∧ res2.created + res2.updated + res2.errors
              = (parseTaskRows c1wRows c1wMap (c1wRows.headD [])).length :=
  c1_idempotence_bracketfree 0 (fun _ _ => false) (fun _ _ => false) 1 2 c1Db 1
    c1wRows c1wMap (some (str "Unique ID"))
    ⟨1, 7, str "12 Main St", none, str "house", 1, 1, 1, none, true, none⟩
    (by decide) (by decide) (by decide) (by decide) (by decide)

end MayaOps
